import Mathlib

/-!
The DRBD backport of the kernel connector: callback queue, dispatch, notification

A shallow embedding of `drbd/cn_queue.c` and `drbd/connector.c`.

Conventions of the embedding.

* Pointers are natural numbers, `0` is `NULL`.  A `struct cn_msg *` that is only
  passed along (the `callback_priv` of a dispatch unit) is represented by the
  message it points to, `none` being `NULL`.
* `u32` fields are natural numbers; where the C code adds or multiplies them the
  wrap-around is written out with `% 2 ^ 32` (or `% 2 ^ w` for `size_t`, `w`
  being the width of `size_t` on the platform).
* Linked lists (`list_head`) are Lean lists in list order.
* Locks (`spin_lock_bh`, `down`/`up`) protect the sections they bracket; in the
  sequential embedding they have no effect of their own.
* The kernel work queue is a FIFO list of submitted units.  `flush_workqueue`
  returns once every submitted unit has run, so it is embedded as running them.
* Calls of function pointers (handler, destructor) and `kfree` of a dispatch
  unit are recorded in an event trace.
-/

namespace Connector

/-! ## errno values -/

def EPERM : Int := 1
def ENOMEM : Int := 12
def ENODEV : Int := 19
def EINVAL : Int := 22

/-! ## Data model (`linux/connector.h`) -/

/-- The two-part identifier `struct cb_id`. -/
structure cb_id where
  idx : Nat
  val : Nat
deriving DecidableEq

/-- One range record `struct cn_notify_req`. -/
structure cn_notify_req where
  first : Nat
  range : Nat
deriving DecidableEq

/-- The control message `struct cn_ctl_msg`; `data` holds the range records that
are really present in memory behind the header. -/
structure cn_ctl_msg where
  idx_notify_num : Nat
  val_notify_num : Nat
  group : Nat
  len : Nat
  data : List cn_notify_req
deriving DecidableEq

/-- The message envelope `struct cn_msg`.  The payload `data` is kept in the view
`cn_callback` takes of it, `(struct cn_ctl_msg *)msg->data`; `none` is a message
without payload bytes. -/
structure cn_msg where
  id : cb_id
  seq : Nat
  ack : Nat
  len : Nat
  data : Option cn_ctl_msg
deriving DecidableEq

/-- The name and identifier of an entry, `struct cn_callback_id`. -/
structure cn_callback_id where
  name : List Char
  id : cb_id
deriving DecidableEq

/-- The data of a dispatch unit, `struct cn_callback_data`. -/
structure cn_callback_data where
  destruct_data : Nat
  ddata : Nat
  callback_priv : Option cn_msg
  callback : Nat
  free : Nat
deriving DecidableEq

/-- The part of `struct work_struct` the connector reads: bit 0 of `pending`. -/
structure work_struct where
  pending : Bool
deriving DecidableEq

/-- A registered callback, `struct cn_callback_entry`.  `addr` is the address the
entry was allocated at; the back pointer `pdev` is left out (an entry is always
handled together with its queue). -/
structure cn_callback_entry where
  addr : Nat
  work : work_struct
  id : cn_callback_id
  data : cn_callback_data
  seq : Nat
  group : Nat
  nls : Nat
deriving DecidableEq

/-- A unit submitted to the work queue: the work embedded in the entry at `addr`
(its data is the entry's `data`), or a separately allocated `work_struct` at `w`
followed by its own `cn_callback_data`. -/
inductive work_item where
  | embedded (addr : Nat)
  | standalone (w : Nat) (d : cn_callback_data)
deriving DecidableEq

/-- What a running dispatch unit does to the outside: calls of the handler, of
the destructor, and `kfree`. -/
inductive event where
  | callback (fn : Nat) (priv : Option cn_msg)
  | destruct_data (fn : Nat) (ddata : Nat)
  | kfree (p : Nat)
deriving DecidableEq

/-- The callback queue, `struct cn_queue_dev`. -/
structure cn_queue_dev where
  name : List Char
  refcnt : Int
  queue_list : List cn_callback_entry
  cn_queue : List work_item
  nls : Nat
  netlink_groups : Nat
deriving DecidableEq

/-- Size of the name buffers `cbq->id.name` and `dev->name` (`CN_CBQ_NAMELEN` of
`linux/connector.h`). -/
def CN_CBQ_NAMELEN : Nat := 32

/-- The effect of `snprintf(buf, sizeof(buf), "%s", name)`: at most
`sizeof(buf) - 1` characters are stored. -/
def snprintf_name (name : List Char) : List Char :=
  name.take (CN_CBQ_NAMELEN - 1)

/-! ## `cn_queue.c` -/

/-- `cn_queue_wrapper`: call the handler on the payload, call the destructor on
`ddata`, clear `ddata`, `kfree(d->free)`. -/
def cn_queue_wrapper (d : cn_callback_data) : cn_callback_data × List event :=
  ({ d with ddata := 0 },
   [event.callback d.callback d.callback_priv,
    event.destruct_data d.destruct_data d.ddata,
    event.kfree d.free])

/-- The worker runs the work embedded in the entry at address `a`: the pending
bit is cleared and `cn_queue_wrapper` runs on the entry's `data`. -/
def run_embedded (a : Nat) :
    List cn_callback_entry → List cn_callback_entry × List event
  | [] => ([], [])
  | e :: es =>
    if e.addr = a then
      ({ e with work := { pending := false }, data := (cn_queue_wrapper e.data).1 } :: es,
       (cn_queue_wrapper e.data).2)
    else
      (e :: (run_embedded a es).1, (run_embedded a es).2)

/-- The worker runs one submitted unit over the live entries `objs`. -/
def run_work (wk : work_item) (objs : List cn_callback_entry) :
    List cn_callback_entry × List event :=
  match wk with
  | work_item.embedded a => run_embedded a objs
  | work_item.standalone _ d => (objs, (cn_queue_wrapper d).2)

/-- `flush_workqueue`: every submitted unit runs, in FIFO order. -/
def flush_workqueue :
    List work_item → List cn_callback_entry → List cn_callback_entry × List event
  | [], objs => (objs, [])
  | wk :: rest, objs =>
    ((flush_workqueue rest (run_work wk objs).1).1,
     (run_work wk objs).2 ++ (flush_workqueue rest (run_work wk objs).1).2)

/-- `cn_queue_alloc_callback_entry`; `p` is what `kzalloc` returned (`none` for
`NULL`).  All fields not set are zero. -/
def cn_queue_alloc_callback_entry (p : Option Nat) (name : List Char) (id : cb_id)
    (callback : Nat) : Option cn_callback_entry :=
  match p with
  | none => none
  | some a =>
    some { addr := a
           work := { pending := false }
           id := { name := snprintf_name name, id := id }
           data := { destruct_data := 0, ddata := 0, callback_priv := none,
                     callback := callback, free := 0 }
           seq := 0
           group := 0
           nls := 0 }

/-- `cn_queue_free_callback`: `cancel_delayed_work` (nothing to cancel, the work
is never submitted with a delay), `flush_workqueue` of the queue of the owning
device, `kfree(cbq)`.  While the queue is flushed `cbq` is still allocated, next
to the linked entries. -/
def cn_queue_free_callback (dev : cn_queue_dev) (cbq : cn_callback_entry) :
    cn_queue_dev × List event :=
  ({ dev with queue_list := (flush_workqueue dev.cn_queue (cbq :: dev.queue_list)).1.tail
              cn_queue := [] },
   (flush_workqueue dev.cn_queue (cbq :: dev.queue_list)).2)

/-- `cn_cb_equal`. -/
def cn_cb_equal (i1 i2 : cb_id) : Bool :=
  i1.idx == i2.idx && i1.val == i2.val

/-- `cn_queue_add_callback`; `p` is what `kzalloc` returned for the new entry. -/
def cn_queue_add_callback (dev : cn_queue_dev) (p : Option Nat) (name : List Char)
    (id : cb_id) (callback : Nat) : Int × cn_queue_dev × List event :=
  match cn_queue_alloc_callback_entry p name id callback with
  | none => (-ENOMEM, dev, [])
  | some cbq =>
    if dev.queue_list.any (fun c => cn_cb_equal c.id.id id) then
      -- found: atomic_inc, atomic_dec, cn_queue_free_callback(cbq)
      (-EINVAL,
       (cn_queue_free_callback { dev with refcnt := dev.refcnt + 1 - 1 } cbq).1,
       (cn_queue_free_callback { dev with refcnt := dev.refcnt + 1 - 1 } cbq).2)
    else
      (0,
       { dev with
           refcnt := dev.refcnt + 1
           queue_list := dev.queue_list ++
             [{ cbq with nls := dev.nls, seq := 0, group := cbq.id.id.idx }] },
       [])

/-- The scan of `cn_queue_del_callback`: the first entry with an equal
identifier is unlinked; the result is that entry and the remaining list. -/
def list_del_first (id : cb_id) :
    List cn_callback_entry → Option (cn_callback_entry × List cn_callback_entry)
  | [] => none
  | c :: cs =>
    if cn_cb_equal c.id.id id then some (c, cs)
    else
      match list_del_first id cs with
      | none => none
      | some r => some (r.1, c :: r.2)

/-- `cn_queue_del_callback`. -/
def cn_queue_del_callback (dev : cn_queue_dev) (id : cb_id) :
    cn_queue_dev × List event :=
  match list_del_first id dev.queue_list with
  | none => (dev, [])
  | some r =>
    ({ (cn_queue_free_callback { dev with queue_list := r.2 } r.1).1 with
         refcnt := dev.refcnt - 1 },
     (cn_queue_free_callback { dev with queue_list := r.2 } r.1).2)

/-- `cn_queue_alloc_dev`; `kz` tells whether `kzalloc` succeeded, `wq` whether
`create_workqueue` did. -/
def cn_queue_alloc_dev (kz wq : Bool) (name : List Char) (nls : Nat) :
    Option cn_queue_dev :=
  if !kz then none
  else if !wq then none
  else some { name := snprintf_name name
              refcnt := 0
              queue_list := []
              cn_queue := []
              nls := nls
              netlink_groups := 0 }

/-! ## `connector.c`: outbound path -/

/-- A frame handed to `netlink_broadcast`: the group it is broadcast to (also
stored in the frame as `NETLINK_GROUP(skb)`), the `nlmsg_seq` of its header and
the message copied into it. -/
structure nl_frame where
  group : Nat
  nlmsg_seq : Nat
  msg : cn_msg
deriving DecidableEq

/-- The group scan of `cn_netlink_send` for `__group == 0`: the whole list is
walked (there is no `break`), every entry with an equal identifier sets `found`
and overwrites `group`. -/
def cn_netlink_send_scan (id : cb_id) (l : List cn_callback_entry) : Bool × Nat :=
  l.foldl (fun acc c => if cn_cb_equal c.id.id id then (true, c.group) else acc) (false, 0)

/-- `NLMSG_SPACE(0)` of `linux/netlink.h`: the aligned size of `struct nlmsghdr`. -/
def NLMSG_SPACE_0 : Nat := 16

/-- Modelled from the spec: `sizeof(struct cn_msg)`, the envelope without payload
(section 6: identifier 4 + 4 bytes, sequence number, acknowledgement number and
payload length 4 bytes each); `linux/connector.h` is not part of the sources. -/
def SIZEOF_CN_MSG : Nat := 20

/-- `NLMSG_ALIGN` of `linux/netlink.h`: rounded up to a multiple of 4. -/
def NLMSG_ALIGN (len : Nat) : Nat := (len + 3) / 4 * 4

/-- `NLMSG_SPACE(len)` of `linux/netlink.h`, `NLMSG_ALIGN(NLMSG_LENGTH(len))`: the
aligned size of a netlink header followed by `len` bytes, in exact arithmetic. -/
def NLMSG_SPACE (len : Nat) : Nat := NLMSG_ALIGN (len + NLMSG_SPACE_0)

/-- The `unsigned int size` of `cn_netlink_send`,
`NLMSG_SPACE(sizeof(*msg) + msg->len)`: the sum and the rounding are computed in
`size_t` and the result is stored in an `unsigned int`; for every `size_t` of at
least 32 bits that is the exact value modulo `2 ^ 32`. -/
def cn_netlink_send_size (msg : cn_msg) : Nat :=
  NLMSG_SPACE (SIZEOF_CN_MSG + msg.len) % 2 ^ 32

/-- `cn_netlink_send` from `alloc_skb` on, the group being resolved; `skb_ok`
tells whether `alloc_skb` succeeded.  `NLMSG_PUT` finds the room it asks for
(`NLMSG_SPACE(size - sizeof(*nlh))` is `size` again), so `nlmsg_failure` is not
reached.  `memcpy` then writes `sizeof(*data) + msg->len` bytes behind the
header of a frame of `size` bytes: `none` when the frame is smaller than that,
which is when `size` has wrapped. -/
def cn_netlink_send_frame (skb_ok : Bool) (msg : cn_msg) (group : Nat) :
    Option (Int × List nl_frame) :=
  if !skb_ok then some (-ENOMEM, [])
  else if cn_netlink_send_size msg < NLMSG_SPACE_0 + (SIZEOF_CN_MSG + msg.len) then none
  else some (0, [{ group := group, nlmsg_seq := msg.seq, msg := msg }])

/-- `cn_netlink_send`; `skb_ok` tells whether `alloc_skb` succeeded.  The result
is the return value and the frames broadcast, `none` when memory is written
that is not there. -/
def cn_netlink_send (dev : cn_queue_dev) (skb_ok : Bool) (msg : cn_msg) (__group : Nat) :
    Option (Int × List nl_frame) :=
  if __group = 0 then
    if (cn_netlink_send_scan msg.id dev.queue_list).1 then
      cn_netlink_send_frame skb_ok msg (cn_netlink_send_scan msg.id dev.queue_list).2
    else some (-ENODEV, [])
  else
    cn_netlink_send_frame skb_ok msg __group

/-! ## `connector.c`: inbound path -/

/-- `queue_work` of the kernel: when bit 0 of `pending` is already set nothing
happens and 0 is returned; otherwise the bit is set, the unit is appended to the
queue and 1 is returned.  The result is (return value, queue, pending bit). -/
def queue_work (wq : List work_item) (pending : Bool) (wk : work_item) :
    Bool × List work_item × Bool :=
  if pending then (false, wq, pending) else (true, wq ++ [wk], true)

/-- The body of the scan of `cn_call_callback` for the entry `c` whose identifier
equals that of the message; `w` is what `kmalloc` returns on the fallback path.
The result is (`err`, the entry afterwards, the work queue afterwards). -/
def cn_call_callback_entry (wq : List work_item) (w : Option Nat) (msg : cn_msg)
    (destruct_data data : Nat) (c : cn_callback_entry) :
    Int × cn_callback_entry × List work_item :=
  if !c.work.pending && c.data.ddata == 0 then
    ((if (queue_work wq c.work.pending (work_item.embedded c.addr)).1 then 0 else -ENODEV),
     { c with
         data := { c.data with callback_priv := some msg, ddata := data,
                               destruct_data := destruct_data }
         work := { pending := (queue_work wq c.work.pending (work_item.embedded c.addr)).2.2 } },
     (queue_work wq c.work.pending (work_item.embedded c.addr)).2.1)
  else
    match w with
    | some a =>
      ((if (queue_work wq false (work_item.standalone a
              { callback_priv := some msg, callback := c.data.callback, ddata := data,
                destruct_data := destruct_data, free := a })).1 then 0 else -EINVAL),
       c,
       (queue_work wq false (work_item.standalone a
              { callback_priv := some msg, callback := c.data.callback, ddata := data,
                destruct_data := destruct_data, free := a })).2.1)
    | none => (-ENOMEM, c, wq)

/-- The scan of `cn_call_callback`: the first entry with an equal identifier is
handled, then the loop is left. -/
def cn_call_callback_scan (wq : List work_item) (w : Option Nat) (msg : cn_msg)
    (destruct_data data : Nat) :
    List cn_callback_entry → Int × List cn_callback_entry × List work_item
  | [] => (-ENODEV, [], wq)
  | c :: cs =>
    if cn_cb_equal c.id.id msg.id then
      ((cn_call_callback_entry wq w msg destruct_data data c).1,
       (cn_call_callback_entry wq w msg destruct_data data c).2.1 :: cs,
       (cn_call_callback_entry wq w msg destruct_data data c).2.2)
    else
      ((cn_call_callback_scan wq w msg destruct_data data cs).1,
       c :: (cn_call_callback_scan wq w msg destruct_data data cs).2.1,
       (cn_call_callback_scan wq w msg destruct_data data cs).2.2)

/-- `cn_call_callback`. -/
def cn_call_callback (dev : cn_queue_dev) (w : Option Nat) (msg : cn_msg)
    (destruct_data data : Nat) : Int × cn_queue_dev :=
  ((cn_call_callback_scan dev.cn_queue w msg destruct_data data dev.queue_list).1,
   { dev with
       queue_list := (cn_call_callback_scan dev.cn_queue w msg destruct_data data dev.queue_list).2.1
       cn_queue := (cn_call_callback_scan dev.cn_queue w msg destruct_data data dev.queue_list).2.2 })

/-! ## `connector.c`: notification -/

/-- A subscription record, `struct cn_ctl_entry`: the stored control message. -/
structure cn_ctl_entry where
  msg : cn_ctl_msg
deriving DecidableEq

/-- The state of the router: the callback queue `cdev.cbdev` and the global
`notify_list`. -/
structure connector where
  cbdev : cn_queue_dev
  notify_list : List cn_ctl_entry
deriving DecidableEq

/-- One of the two `for` loops of `cn_notify` over `n` range records, `req` being
the position of the record pointer in `data` when the loop starts.  The result is
(found, position of the record pointer when the loop is left); `none` when a
record is read that is not there.  On a hit the loop is left by `break`, which
skips the `++req` of the loop header. -/
def cn_notify_scan (x : Nat) (data : List cn_notify_req) : Nat → Nat → Option (Bool × Nat)
  | 0, req => some (false, req)
  | n + 1, req =>
    match data[req]? with
    | none => none
    | some r =>
      if r.first ≤ x ∧ x < (r.first + r.range) % 2 ^ 32 then some (true, req)
      else cn_notify_scan x data n (req + 1)

/-- The body of the loop of `cn_notify` for one subscription record. -/
def cn_notify_entry (dev : cn_queue_dev) (skb_ok : Bool) (id : cb_id) (notify_event : Nat)
    (ent : cn_ctl_entry) : Option (List nl_frame) :=
  match cn_notify_scan id.idx ent.msg.data ent.msg.idx_notify_num 0 with
  | none => none
  | some ri =>
    match cn_notify_scan id.val ent.msg.data ent.msg.val_notify_num ri.2 with
    | none => none
    | some rv =>
      if ri.1 && rv.1 then
        match cn_netlink_send dev skb_ok
                { id := id, seq := 0, ack := notify_event, len := 0, data := none }
                ent.msg.group with
        | none => none
        | some r => some r.2
      else some []

/-- `cn_notify`; `alloc_skb k` tells whether the `alloc_skb` of the send for the
record at position `k` of the list succeeds.  The result is the frames
broadcast, in order. -/
def cn_notify (dev : cn_queue_dev) (alloc_skb : Nat → Bool) (id : cb_id) (notify_event : Nat) :
    List cn_ctl_entry → Option (List nl_frame)
  | [] => some []
  | ent :: rest =>
    match cn_notify_entry dev (alloc_skb 0) id notify_event ent with
    | none => none
    | some a =>
      match cn_notify dev (fun k => alloc_skb (k + 1)) id notify_event rest with
      | none => none
      | some b => some (a ++ b)

/-- `cn_add_callback`. -/
def cn_add_callback (st : connector) (p : Option Nat) (alloc_skb : Nat → Bool) (id : cb_id)
    (name : List Char) (callback : Nat) :
    Option (Int × connector × List event × List nl_frame) :=
  if (cn_queue_add_callback st.cbdev p name id callback).1 ≠ 0 then
    some ((cn_queue_add_callback st.cbdev p name id callback).1,
          { st with cbdev := (cn_queue_add_callback st.cbdev p name id callback).2.1 },
          (cn_queue_add_callback st.cbdev p name id callback).2.2, [])
  else
    match cn_notify (cn_queue_add_callback st.cbdev p name id callback).2.1 alloc_skb id 0
            st.notify_list with
    | none => none
    | some sent =>
      some (0, { st with cbdev := (cn_queue_add_callback st.cbdev p name id callback).2.1 },
            (cn_queue_add_callback st.cbdev p name id callback).2.2, sent)

/-- `cn_del_callback`. -/
def cn_del_callback (st : connector) (alloc_skb : Nat → Bool) (id : cb_id) :
    Option (connector × List event × List nl_frame) :=
  match cn_notify (cn_queue_del_callback st.cbdev id).1 alloc_skb id 1 st.notify_list with
  | none => none
  | some sent =>
    some ({ st with cbdev := (cn_queue_del_callback st.cbdev id).1 },
          (cn_queue_del_callback st.cbdev id).2, sent)

/-! ## `connector.c`: control messages -/

/-- Modelled from the spec: `sizeof(struct cn_ctl_msg)`, the header of the
control message (section 6: group, count of idx-ranges, count of val-ranges,
declared data length, 4 bytes each); `linux/connector.h` is not part of the
sources. -/
def SIZEOF_CN_CTL_MSG : Nat := 16

/-- Modelled from the spec: `sizeof(struct cn_notify_req)`, one range record
(section 6: first and range-size, 4 bytes each); `linux/connector.h` is not part
of the sources. -/
def SIZEOF_CN_NOTIFY_REQ : Nat := 8

/-- How a comparison loop of `cn_ctl_msg_equals` ends. -/
inductive cmp_result where
  | fault
  | differ
  | same (req : Nat)
deriving DecidableEq

/-- One of the two `for` loops of `cn_ctl_msg_equals` over `n` records, both
record pointers being at position `req` when the loop starts: `differ` when the
function returns 0 from inside the loop, `same req` when the loop runs to its
end, `fault` when a record is read that is not there. -/
def cn_ctl_msg_equals_loop (d1 d2 : List cn_notify_req) : Nat → Nat → cmp_result
  | 0, req => cmp_result.same req
  | n + 1, req =>
    match d1[req]?, d2[req]? with
    | some r1, some r2 =>
      if r1.first ≠ r2.first ∨ r1.range ≠ r2.range then cmp_result.differ
      else cn_ctl_msg_equals_loop d1 d2 n (req + 1)
    | _, _ => cmp_result.fault

/-- `cn_ctl_msg_equals` (`true` for 1, `false` for 0); `w` is the width of
`size_t`, the type of `sizeof`: the sum of the two counts is a `u32` sum, its
product with `sizeof(*req1)` a `size_t` product.  `none` when a record is read
that is not there. -/
def cn_ctl_msg_equals (w : Nat) (m1 m2 : cn_ctl_msg) : Option Bool :=
  if m1.idx_notify_num ≠ m2.idx_notify_num then some false
  else if m1.val_notify_num ≠ m2.val_notify_num then some false
  else if m1.len ≠ m2.len then some false
  else if ((m1.idx_notify_num + m1.val_notify_num) % 2 ^ 32 * SIZEOF_CN_NOTIFY_REQ) % 2 ^ w
            ≠ m1.len then some true
  else
    match cn_ctl_msg_equals_loop m1.data m2.data m1.idx_notify_num 0 with
    | cmp_result.fault => none
    | cmp_result.differ => some false
    | cmp_result.same req =>
      match cn_ctl_msg_equals_loop m1.data m2.data m1.val_notify_num req with
      | cmp_result.fault => none
      | cmp_result.differ => some false
      | cmp_result.same _ => some true

/-- The unsubscribe loop of `cn_callback`: every record that
`cn_ctl_msg_equals` finds equal to `ctl` is unlinked and freed. -/
def cn_callback_remove (w : Nat) (ctl : cn_ctl_msg) : List cn_ctl_entry → Option (List cn_ctl_entry)
  | [] => some []
  | ent :: rest =>
    match cn_ctl_msg_equals w ent.msg ctl with
    | none => none
    | some eq =>
      match cn_callback_remove w ctl rest with
      | none => none
      | some rest1 => some (if eq then rest1 else ent :: rest1)

/-- The `u32 size` of `cn_callback`: header plus records, computed in `size_t`
and stored in a `u32`. -/
def cn_callback_size (w : Nat) (ctl : cn_ctl_msg) : Nat :=
  ((SIZEOF_CN_CTL_MSG +
      ((ctl.idx_notify_num + ctl.val_notify_num) % 2 ^ 32 * SIZEOF_CN_NOTIFY_REQ) % 2 ^ w)
    % 2 ^ w) % 2 ^ 32

/-- `cn_callback` on the message `msg`, as a function of the `notify_list`; `w`
is the width of `size_t`, `sizeof_ent` is `sizeof(struct cn_ctl_entry)`,
`ent_ok` tells whether `kmalloc` succeeded.  `none` when memory is read or
written that is not there: the payload of a message without payload bytes,
range records beyond those present, or a block that the wrapped `u32 size` made
smaller than what is copied into it.  `list_add` links the new record at the
head of the list. -/
def cn_callback (w sizeof_ent : Nat) (ent_ok : Bool) (msg : cn_msg)
    (notify_list : List cn_ctl_entry) : Option (List cn_ctl_entry) :=
  if msg.len < SIZEOF_CN_CTL_MSG then some notify_list
  else
    match msg.data with
    | none => none
    | some ctl =>
      if msg.len ≠ cn_callback_size w ctl then some notify_list
      else if (ctl.len + SIZEOF_CN_CTL_MSG) % 2 ^ w ≠ msg.len then some notify_list
      else if ctl.group = 0 then cn_callback_remove w ctl notify_list
      else if !ent_ok then some notify_list
      else if 2 ^ 32 ≤ cn_callback_size w ctl + sizeof_ent then none
      else if ctl.data.length <
                (cn_callback_size w ctl - SIZEOF_CN_CTL_MSG) / SIZEOF_CN_NOTIFY_REQ then none
      else
        some ({ msg := { ctl with
                  data := ctl.data.take
                    ((cn_callback_size w ctl - SIZEOF_CN_CTL_MSG) / SIZEOF_CN_NOTIFY_REQ) } }
              :: notify_list)

/-! ## `cn_queue.c`: teardown -/

/-- What `cn_queue_free_dev` leaves when it returns: the queue as it is when
`kfree(dev)` is reached, the value the last `atomic_read` of the wait loop
returned, and what the flushed units did. -/
structure free_dev_result where
  dev : cn_queue_dev
  last_read : Int
  trace : List event
deriving DecidableEq

/-- The wait loop of `cn_queue_free_dev`, `while (atomic_read(&dev->refcnt))`:
`reads k` is the value the `k`-th evaluation of the loop condition reads (other
actors may change the counter between two reads; with no other actor every read
gives the same value).  `fuel` bounds the number of evaluations, `none` when
the loop has not ended within them. -/
def cn_queue_free_dev_wait (reads : Nat → Int) : Nat → Nat → Option Int
  | 0, _ => none
  | fuel + 1, k =>
    if reads k ≠ 0 then cn_queue_free_dev_wait reads fuel (k + 1)
    else some (reads k)

/-- `cn_queue_free_dev`: the work queue is flushed and destroyed, every entry is
unlinked with `list_del` (nothing else is done to it, and `refcnt` is not
written), then the wait loop runs. -/
def cn_queue_free_dev (dev : cn_queue_dev) (reads : Nat → Int) (fuel : Nat) :
    Option free_dev_result :=
  match cn_queue_free_dev_wait reads fuel 0 with
  | none => none
  | some v =>
    some { dev := { dev with queue_list := [], cn_queue := [] }
           last_read := v
           trace := (flush_workqueue dev.cn_queue dev.queue_list).2 }

/-! ## `connector.c`: receiving -/

/-- The fields of `struct nlmsghdr` that are read. -/
structure nlmsghdr where
  nlmsg_len : Nat
  nlmsg_seq : Nat
deriving DecidableEq

/-- A transport buffer `struct sk_buff`: its address, its user count `users`, its
length, the netlink header at `skb->data` and the message behind it
(`NLMSG_DATA(nlh)`). -/
structure sk_buff where
  addr : Nat
  users : Int
  len : Nat
  nlh : nlmsghdr
  msg : cn_msg
deriving DecidableEq

/-- `skb_get`: one more user of the buffer. -/
def skb_get (skb : sk_buff) : sk_buff :=
  { skb with users := skb.users + 1 }

/-- `kfree_skb`: one user less (the buffer is released with its last user). -/
def kfree_skb (skb : sk_buff) : sk_buff :=
  { skb with users := skb.users - 1 }

/-- `__cn_rx_skb`; `capable` is the result of `capable(CAP_SYS_ADMIN)`, `w` what
`kmalloc` returns inside `cn_call_callback`, `kfree_skb_fn` the address of
`kfree_skb`, which is handed on as the destructor, the buffer as its data. -/
def __cn_rx_skb (dev : cn_queue_dev) (capable : Bool) (w : Option Nat) (kfree_skb_fn : Nat)
    (skb : sk_buff) : Int × cn_queue_dev :=
  if !capable then (-EPERM, dev)
  else cn_call_callback dev w skb.msg kfree_skb_fn skb.addr

/-- `cn_rx_skb`; `max_msg_size` is `CONNECTOR_MAX_MSG_SIZE`.  `skb` and `__skb`
are the same buffer; the result is the queue and the buffer with its user count
when the function returns.  (The local `len` is computed and never used.) -/
def cn_rx_skb (dev : cn_queue_dev) (capable : Bool) (w : Option Nat) (kfree_skb_fn : Nat)
    (max_msg_size : Nat) (__skb : sk_buff) : cn_queue_dev × sk_buff :=
  if NLMSG_SPACE_0 ≤ (skb_get __skb).len then
    if (skb_get __skb).nlh.nlmsg_len < SIZEOF_CN_MSG ∨
        (skb_get __skb).len < (skb_get __skb).nlh.nlmsg_len ∨
        max_msg_size < (skb_get __skb).nlh.nlmsg_len then
      (dev, kfree_skb (kfree_skb (skb_get __skb)))
    else if (__cn_rx_skb dev capable w kfree_skb_fn (skb_get __skb)).1 < 0 then
      ((__cn_rx_skb dev capable w kfree_skb_fn (skb_get __skb)).2,
       kfree_skb (kfree_skb (skb_get __skb)))
    else
      ((__cn_rx_skb dev capable w kfree_skb_fn (skb_get __skb)).2,
       kfree_skb (skb_get __skb))
  else
    (dev, kfree_skb (skb_get __skb))

/-! ## Properties of the queue: definitions used by the statements -/

/-- The fields of an entry that no running dispatch unit writes: address, name
and identifier, handler, sequence number, group, socket. -/
def fixed_fields (e : cn_callback_entry) : Nat × cn_callback_id × Nat × Nat × Nat × Nat :=
  (e.addr, e.id, e.data.callback, e.seq, e.group, e.nls)

/-- No two entries of the list have identifiers that `cn_cb_equal` finds equal. -/
def unique_ids (l : List cn_callback_entry) : Prop :=
  l.Pairwise (fun a b => cn_cb_equal a.id.id b.id.id = false)

instance (l : List cn_callback_entry) : Decidable (unique_ids l) := by
  unfold unique_ids; infer_instance

/-- A call of the queue interface: an add (with the result of `kzalloc`) or a
remove. -/
inductive queue_op where
  | add (p : Option Nat) (name : List Char) (id : cb_id) (callback : Nat)
  | del (id : cb_id)
deriving DecidableEq

/-- The queue after one call. -/
def apply_op (dev : cn_queue_dev) : queue_op → cn_queue_dev
  | queue_op.add p name id callback => (cn_queue_add_callback dev p name id callback).2.1
  | queue_op.del id => (cn_queue_del_callback dev id).1

/-- The queue after a sequence of calls. -/
def run_ops (dev : cn_queue_dev) (ops : List queue_op) : cn_queue_dev :=
  ops.foldl apply_op dev

/-- An empty queue named "cqueue" on socket 5, as `cn_queue_alloc_dev` makes it. -/
def cqueue : cn_queue_dev :=
  { name := ['c', 'q', 'u', 'e', 'u', 'e'], refcnt := 0, queue_list := [], cn_queue := [],
    nls := 5, netlink_groups := 0 }

/-- The identifier `{1, 100}` of the scenarios. -/
def id_1_100 : cb_id := { idx := 1, val := 100 }

/-- The queue `cqueue` after the callback "h1" with handler 9 was added for
`{1, 100}`, the entry allocated at address 4096. -/
def cqueue_h1 : cn_queue_dev :=
  (cn_queue_add_callback cqueue (some 4096) ['h', '1'] id_1_100 9).2.1

/-- The subscription of the scenario: idx-range [10, 20), val-range [0, 5),
group 7. -/
def sub_10_20_0_5 : cn_ctl_entry :=
  { msg := { idx_notify_num := 1, val_notify_num := 1, group := 7, len := 16,
             data := [{ first := 10, range := 10 }, { first := 0, range := 5 }] } }

/-- A subscription with idx-range [10, 20), val-ranges [0, 5) and [100, 101),
group 7. -/
def sub_10_20_0_5_100 : cn_ctl_entry :=
  { msg := { idx_notify_num := 1, val_notify_num := 2, group := 7, len := 24,
             data := [{ first := 10, range := 10 }, { first := 0, range := 5 },
                      { first := 100, range := 1 }] } }

/-- The control message that subscribes `sub_10_20_0_5_100`: 16 bytes of header
and 24 bytes of range records. -/
def msg_sub_10_20_0_5_100 : cn_msg :=
  { id := id_1_100, seq := 0, ack := 0, len := 40, data := some sub_10_20_0_5_100.msg }

/-- A control message of 16 bytes, header only, that declares `2 ^ 29` idx-ranges
and a data length of 0, for group 7. -/
def ctl_wrapped : cn_ctl_msg :=
  { idx_notify_num := 2 ^ 29, val_notify_num := 0, group := 7, len := 0, data := [] }

/-- The message that carries `ctl_wrapped`. -/
def msg_wrapped : cn_msg :=
  { id := id_1_100, seq := 0, ack := 0, len := 16, data := some ctl_wrapped }

/-- A control message is well formed when its counts and its declared length
describe the range records it carries: `idx_notify_num + val_notify_num` records
are present, `len` is their size in bytes, and header plus records fit a `u32`
length. -/
def well_formed (m : cn_ctl_msg) : Prop :=
  m.data.length = m.idx_notify_num + m.val_notify_num ∧
  m.len = (m.idx_notify_num + m.val_notify_num) * SIZEOF_CN_NOTIFY_REQ ∧
  SIZEOF_CN_CTL_MSG + m.len < 2 ^ 32

instance (m : cn_ctl_msg) : Decidable (well_formed m) := by
  unfold well_formed; infer_instance

/-- What holds of every record `cn_callback` stores: the range records copied
behind the header fill the declared length. -/
def recorded (m : cn_ctl_msg) : Prop :=
  m.data.length * SIZEOF_CN_NOTIFY_REQ = m.len

instance (m : cn_ctl_msg) : Decidable (recorded m) := by
  unfold recorded; infer_instance

/-- The two control messages have the same counts, the same declared length and
the same range records in the same order. -/
def same_request (m1 m2 : cn_ctl_msg) : Bool :=
  decide (m1.idx_notify_num = m2.idx_notify_num ∧ m1.val_notify_num = m2.val_notify_num ∧
    m1.len = m2.len ∧ m1.data = m2.data)

/-- The subscription of the scenario with its two range records swapped. -/
def sub_0_5_10_20 : cn_ctl_entry :=
  { msg := { idx_notify_num := 1, val_notify_num := 1, group := 7, len := 16,
             data := [{ first := 0, range := 5 }, { first := 10, range := 10 }] } }

/-- The control message that unsubscribes `sub_10_20_0_5`: the same counts,
length and range records, group 0. -/
def msg_unsub_10_20_0_5 : cn_msg :=
  { id := id_1_100, seq := 0, ack := 0, len := 32,
    data := some { sub_10_20_0_5.msg with group := 0 } }

/-- The standalone unit `cn_call_callback` builds on the fallback path for the
entry `e`: allocated at `a`, the handler copied from the entry, message,
destructor and data as given, `free` pointing at the unit itself. -/
def fallback_unit (a : Nat) (msg : cn_msg) (destruct_data data : Nat) (e : cn_callback_entry) :
    work_item :=
  work_item.standalone a
    { callback_priv := some msg, callback := e.data.callback, ddata := data,
      destruct_data := destruct_data, free := a }

/-- The entry `e` after `cn_call_callback` bound a message to its idle embedded
slot and submitted it. -/
def bound_entry (msg : cn_msg) (destruct_data data : Nat) (e : cn_callback_entry) :
    cn_callback_entry :=
  { e with
      work := { pending := true }
      data := { e.data with callback_priv := some msg, ddata := data,
                            destruct_data := destruct_data } }

/-- The entry `e` after the worker ran its embedded unit. -/
def finished_entry (e : cn_callback_entry) : cn_callback_entry :=
  { e with work := { pending := false }, data := { e.data with ddata := 0 } }

/-- A first message for `{1, 100}`. -/
def msg_a : cn_msg := { id := id_1_100, seq := 1, ack := 0, len := 0, data := none }

/-- A second message for `{1, 100}`. -/
def msg_b : cn_msg := { id := id_1_100, seq := 2, ack := 0, len := 0, data := none }

/-- The entry of `cqueue_h1`. -/
def entry_h1 : cn_callback_entry :=
  { addr := 4096, work := { pending := false },
    id := { name := ['h', '1'], id := id_1_100 },
    data := { destruct_data := 0, ddata := 0, callback_priv := none, callback := 9, free := 0 },
    seq := 0, group := 1, nls := 5 }

/-- The queue `cqueue_h1` after `msg_a` was dispatched to its entry, with
destructor 77 and data 500: the embedded unit is in flight. -/
def cqueue_inflight : cn_queue_dev :=
  (cn_call_callback cqueue_h1 none msg_a 77 500).2

/-- Every entry of the list has the index of its identifier as group. -/
def groups_assigned (l : List cn_callback_entry) : Prop :=
  ∀ e ∈ l, e.group = e.id.id.idx

/-- The entry a successful `cn_queue_add_callback` links: allocated at `a`, name
and identifier copied, handler set, everything else zero, then socket, `seq = 0`
and `group = id.idx` assigned. -/
def new_entry (dev : cn_queue_dev) (a : Nat) (name : List Char) (id : cb_id) (callback : Nat) :
    cn_callback_entry :=
  { addr := a
    work := { pending := false }
    id := { name := snprintf_name name, id := id }
    data := { destruct_data := 0, ddata := 0, callback_priv := none,
              callback := callback, free := 0 }
    seq := 0
    group := id.idx
    nls := dev.nls }

/-- The identifier `{2, 100}`. -/
def id_2_100 : cb_id := { idx := 2, val := 100 }

/-- The queue "cqueue" with two callbacks: "h2" for `{2, 100}` (handler 9, entry
at 4096) and "h1" for `{1, 100}` (handler 10, entry at 8192). -/
def cqueue_two : cn_queue_dev :=
  run_ops cqueue
    [queue_op.add (some 4096) ['h', '2'] id_2_100 9,
     queue_op.add (some 8192) ['h', '1'] id_1_100 10]

/-- A message for `{2, 100}`. -/
def msg_c : cn_msg := { id := id_2_100, seq := 3, ack := 0, len := 0, data := none }

/-- The queue `cqueue_two` after `msg_c` was dispatched to the entry for
`{2, 100}`, with destructor 77 and data 500: that embedded unit is in flight. -/
def cqueue_two_inflight : cn_queue_dev :=
  (cn_call_callback cqueue_two none msg_c 77 500).2

/-- The control message that subscribes `sub_10_20_0_5`: 16 bytes of header and
16 bytes of range records. -/
def msg_sub_10_20_0_5 : cn_msg :=
  { id := id_1_100, seq := 0, ack := 0, len := 32, data := some sub_10_20_0_5.msg }

/-- The test of `cn_ctl_msg_equals` for a corrupted first message: the size of
the declared number of range records, computed as the C expression computes it,
differs from the declared length. -/
def corrupted (w : Nat) (m : cn_ctl_msg) : Prop :=
  ((m.idx_notify_num + m.val_notify_num) % 2 ^ 32 * SIZEOF_CN_NOTIFY_REQ) % 2 ^ w ≠ m.len

instance (w : Nat) (m : cn_ctl_msg) : Decidable (corrupted w m) := by
  unfold corrupted; infer_instance

/-- Reads of the reference count that give 1 twice and 0 from then on: another
actor drops the last reference while teardown waits. -/
def reads_1_1_0 (k : Nat) : Int := if k < 2 then 1 else 0

/-- A privileged buffer of 36 bytes that carries `msg_a`, with one user. -/
def skb_a : sk_buff :=
  { addr := 24576, users := 1, len := 36, nlh := { nlmsg_len := 36, nlmsg_seq := 1 },
    msg := msg_a }

/-- A buffer of 8 bytes, shorter than a netlink header, with one user. -/
def skb_short : sk_buff :=
  { addr := 24576, users := 1, len := 8, nlh := { nlmsg_len := 0, nlmsg_seq := 0 },
    msg := msg_a }

/-- A control message of 16 bytes, header only, whose counts `2 ^ 32 - 1` and 1
add up to `2 ^ 32`, with declared length 0, for group 7. -/
def ctl_sum_wrapped : cn_ctl_msg :=
  { idx_notify_num := 2 ^ 32 - 1, val_notify_num := 1, group := 7, len := 0, data := [] }

/-- The message that carries `ctl_sum_wrapped`. -/
def msg_sum_wrapped : cn_msg :=
  { id := id_1_100, seq := 0, ack := 0, len := 16, data := some ctl_sum_wrapped }

/-- The message that unsubscribes `ctl_sum_wrapped`: the same header, group 0. -/
def msg_unsub_sum_wrapped : cn_msg :=
  { id := id_1_100, seq := 0, ack := 0, len := 16,
    data := some { ctl_sum_wrapped with group := 0 } }

/-! ## Lemmas: running dispatch units keeps the fixed fields -/

theorem cn_cb_equal_iff (a b : cb_id) : cn_cb_equal a b = true ↔ a = b := by
  cases a; cases b; simp [cn_cb_equal]

theorem cn_cb_equal_false_iff (a b : cb_id) : cn_cb_equal a b = false ↔ a ≠ b := by
  have h := cn_cb_equal_iff a b
  cases hc : cn_cb_equal a b <;> simp [hc] at h ⊢ <;> exact h

theorem run_embedded_fixed (a : Nat) (l : List cn_callback_entry) :
    (run_embedded a l).1.map fixed_fields = l.map fixed_fields := by
  induction l with
  | nil => rfl
  | cons e es ih =>
    by_cases h : e.addr = a
    · simp [run_embedded, h, fixed_fields, cn_queue_wrapper]
    · simp [run_embedded, h, ih]

theorem run_work_fixed (wk : work_item) (l : List cn_callback_entry) :
    (run_work wk l).1.map fixed_fields = l.map fixed_fields := by
  cases wk with
  | embedded a => exact run_embedded_fixed a l
  | standalone w d => rfl

theorem flush_workqueue_fixed (wq : List work_item) (l : List cn_callback_entry) :
    (flush_workqueue wq l).1.map fixed_fields = l.map fixed_fields := by
  induction wq generalizing l with
  | nil => rfl
  | cons wk rest ih =>
    simp only [flush_workqueue]
    rw [ih, run_work_fixed]

theorem cn_queue_free_callback_fixed (dev : cn_queue_dev) (cbq : cn_callback_entry) :
    (cn_queue_free_callback dev cbq).1.queue_list.map fixed_fields
      = dev.queue_list.map fixed_fields := by
  have h := flush_workqueue_fixed dev.cn_queue (cbq :: dev.queue_list)
  have h2 := congrArg List.tail h
  simpa [cn_queue_free_callback, List.map_tail] using h2

theorem cn_queue_free_callback_refcnt (dev : cn_queue_dev) (cbq : cn_callback_entry) :
    (cn_queue_free_callback dev cbq).1.refcnt = dev.refcnt := rfl

theorem cn_queue_free_callback_idle (dev : cn_queue_dev) (cbq : cn_callback_entry)
    (h : dev.cn_queue = []) : cn_queue_free_callback dev cbq = (dev, []) := by
  cases dev
  simp only at h
  subst h
  simp [cn_queue_free_callback, flush_workqueue]

/-- The identifiers of a list are determined by its fixed fields. -/
theorem ids_of_fixed {l1 l2 : List cn_callback_entry}
    (h : l1.map fixed_fields = l2.map fixed_fields) :
    l1.map (fun e => e.id.id) = l2.map (fun e => e.id.id) := by
  have h2 := congrArg (List.map (fun t : Nat × cn_callback_id × Nat × Nat × Nat × Nat => t.2.1.id)) h
  simpa [List.map_map, Function.comp_def, fixed_fields] using h2

theorem unique_ids_iff (l : List cn_callback_entry) :
    unique_ids l ↔ (l.map (fun e => e.id.id)).Pairwise (fun a b => cn_cb_equal a b = false) := by
  simp [unique_ids, List.pairwise_map]

theorem unique_ids_of_fixed {l1 l2 : List cn_callback_entry}
    (h : l1.map fixed_fields = l2.map fixed_fields) (hu : unique_ids l2) : unique_ids l1 := by
  rw [unique_ids_iff] at hu ⊢
  rw [ids_of_fixed h]; exact hu

theorem any_ids_of_fixed {l1 l2 : List cn_callback_entry}
    (h : l1.map fixed_fields = l2.map fixed_fields) (id : cb_id) :
    l1.any (fun c => cn_cb_equal c.id.id id) = l2.any (fun c => cn_cb_equal c.id.id id) := by
  have h1 : ∀ l : List cn_callback_entry,
      l.any (fun c => cn_cb_equal c.id.id id)
        = (l.map (fun e => e.id.id)).any (fun i => cn_cb_equal i id) := by
    intro l; induction l with
    | nil => rfl
    | cons c cs ih => simp [List.any_cons, ih]
  rw [h1, h1, ids_of_fixed h]

/-! ## Lemmas: the scan of the remove -/

theorem list_del_first_none (id : cb_id) (l : List cn_callback_entry)
    (h : ∀ e ∈ l, cn_cb_equal e.id.id id = false) : list_del_first id l = none := by
  induction l with
  | nil => rfl
  | cons c cs ih =>
    have hc := h c (List.mem_cons_self _ _)
    have hcs := ih (fun e he => h e (List.mem_cons_of_mem _ he))
    simp [list_del_first, hc, hcs]

theorem list_del_first_some (id : cb_id) (l : List cn_callback_entry)
    (r : cn_callback_entry × List cn_callback_entry) (h : list_del_first id l = some r) :
    ∃ pre post, l = pre ++ r.1 :: post ∧ r.2 = pre ++ post ∧
      (∀ x ∈ pre, cn_cb_equal x.id.id id = false) ∧ cn_cb_equal r.1.id.id id = true := by
  induction l generalizing r with
  | nil => simp [list_del_first] at h
  | cons c cs ih =>
    by_cases hc : cn_cb_equal c.id.id id = true
    · simp [list_del_first, hc] at h
      subst h
      exact ⟨[], cs, by simp, by simp, by simp, hc⟩
    · simp only [list_del_first, hc] at h
      cases hr : list_del_first id cs with
      | none => simp [hr] at h
      | some r1 =>
        simp [hr] at h
        subst h
        obtain ⟨pre, post, h1, h2, h3, h4⟩ := ih r1 hr
        refine ⟨c :: pre, post, by simp [h1], by simp [h2], ?_, h4⟩
        intro x hx
        rcases List.mem_cons.mp hx with rfl | hx
        · simpa using hc
        · exact h3 x hx

theorem unique_ids_append_cons {pre post : List cn_callback_entry} {e : cn_callback_entry}
    (h : unique_ids (pre ++ e :: post)) : unique_ids (pre ++ post) := by
  unfold unique_ids at h ⊢
  exact h.sublist (List.Sublist.append_left (List.sublist_cons_self e post) pre)

/-! ## Lemmas: add and remove keep the identifiers unique -/

theorem cn_queue_add_callback_unique (dev : cn_queue_dev) (p : Option Nat) (name : List Char)
    (id : cb_id) (callback : Nat) (hu : unique_ids dev.queue_list) :
    unique_ids (cn_queue_add_callback dev p name id callback).2.1.queue_list := by
  cases p with
  | none => simpa [cn_queue_add_callback, cn_queue_alloc_callback_entry] using hu
  | some a =>
    by_cases hf : dev.queue_list.any (fun c => cn_cb_equal c.id.id id) = true
    · simp only [cn_queue_add_callback, cn_queue_alloc_callback_entry, hf, if_true]
      exact unique_ids_of_fixed (cn_queue_free_callback_fixed _ _) hu
    · simp only [cn_queue_add_callback, cn_queue_alloc_callback_entry, hf]
      simp only [Bool.false_eq_true, if_false]
      unfold unique_ids at hu ⊢
      rw [List.pairwise_append]
      refine ⟨hu, by simp, ?_⟩
      intro x hx y hy
      simp only [List.mem_singleton] at hy
      subst hy
      simp only [List.any_eq_true, not_exists, not_and, Bool.not_eq_true] at hf
      exact hf x hx

theorem cn_queue_del_callback_unique (dev : cn_queue_dev) (id : cb_id)
    (hu : unique_ids dev.queue_list) :
    unique_ids (cn_queue_del_callback dev id).1.queue_list := by
  unfold cn_queue_del_callback
  cases hr : list_del_first id dev.queue_list with
  | none => simpa using hu
  | some r =>
    obtain ⟨pre, post, h1, h2, -, -⟩ := list_del_first_some id _ r hr
    simp only
    refine unique_ids_of_fixed (cn_queue_free_callback_fixed _ _) ?_
    simp only [h2]
    rw [h1] at hu
    exact unique_ids_append_cons hu

theorem run_ops_unique (ops : List queue_op) (dev : cn_queue_dev)
    (hu : unique_ids dev.queue_list) : unique_ids (run_ops dev ops).queue_list := by
  induction ops generalizing dev with
  | nil => exact hu
  | cons op rest ih =>
    simp only [run_ops, List.foldl_cons]
    apply ih
    cases op with
    | add p name id callback => exact cn_queue_add_callback_unique dev p name id callback hu
    | del id => exact cn_queue_del_callback_unique dev id hu

theorem list_del_first_eq_none (id : cb_id) (l : List cn_callback_entry)
    (h : list_del_first id l = none) : ∀ e ∈ l, cn_cb_equal e.id.id id = false := by
  induction l with
  | nil => simp
  | cons c cs ih =>
    by_cases hc : cn_cb_equal c.id.id id = true
    · simp [list_del_first, hc] at h
    · simp only [list_del_first, hc] at h
      cases hr : list_del_first id cs with
      | none =>
        intro e he
        rcases List.mem_cons.mp he with rfl | he
        · simpa using hc
        · exact ih hr e he
      | some r => simp [hr] at h

/-- With unique identifiers, no entry with identifier `id` is left after
`cn_queue_del_callback dev id`. -/
theorem cn_queue_del_callback_absent (dev : cn_queue_dev) (id : cb_id)
    (hu : unique_ids dev.queue_list) :
    (cn_queue_del_callback dev id).1.queue_list.any (fun c => cn_cb_equal c.id.id id) = false := by
  unfold cn_queue_del_callback
  cases hr : list_del_first id dev.queue_list with
  | none =>
    have h := list_del_first_eq_none id _ hr
    simp only [List.any_eq_false]
    intro x hx
    simp [h x hx]
  | some r =>
    obtain ⟨pre, post, h1, h2, h3, h4⟩ := list_del_first_some id _ r hr
    simp only
    rw [any_ids_of_fixed (cn_queue_free_callback_fixed _ _) id]
    simp only [h2, List.any_eq_false]
    intro x hx
    rcases List.mem_append.mp hx with hx | hx
    · simp [h3 x hx]
    · rw [h1] at hu
      unfold unique_ids at hu
      have hp := (List.pairwise_append.mp hu).2.1
      have hx2 := (List.pairwise_cons.mp hp).1 x hx
      have he : r.1.id.id = id := (cn_cb_equal_iff _ _).mp h4
      rw [he] at hx2
      have hne := (cn_cb_equal_false_iff _ _).mp hx2
      have : cn_cb_equal x.id.id id = false :=
        (cn_cb_equal_false_iff _ _).mpr (fun hh => hne hh.symm)
      simp [this]

theorem cn_queue_add_callback_ret (dev : cn_queue_dev) (a : Nat) (name : List Char)
    (id : cb_id) (callback : Nat) :
    (cn_queue_add_callback dev (some a) name id callback).1
      = (if dev.queue_list.any (fun c => cn_cb_equal c.id.id id) then -EINVAL else 0) := by
  by_cases hf : dev.queue_list.any (fun c => cn_cb_equal c.id.id id) = true
  · simp [cn_queue_add_callback, cn_queue_alloc_callback_entry, hf]
  · simp [cn_queue_add_callback, cn_queue_alloc_callback_entry, hf]

theorem cn_queue_add_callback_present (dev : cn_queue_dev) (a : Nat) (name : List Char)
    (id : cb_id) (callback : Nat)
    (hf : dev.queue_list.any (fun c => cn_cb_equal c.id.id id) = false) :
    (cn_queue_add_callback dev (some a) name id callback).2.1.queue_list.any
      (fun c => cn_cb_equal c.id.id id) = true := by
  have hid : cn_cb_equal id id = true := (cn_cb_equal_iff _ _).mpr rfl
  simp [cn_queue_add_callback, cn_queue_alloc_callback_entry, hf, hid]

/-! ## Claims about the queue -/

/-- C1: starting from the empty queue that `cn_queue_alloc_dev` produces, after
every finite sequence of `cn_queue_add_callback` and `cn_queue_del_callback`
calls, with arbitrary names, identifiers, handlers and allocation results, no
two entries of the collection have identifiers equal under `cn_cb_equal`. -/
theorem queue_ids_unique_after_ops (kz wq : Bool) (name : List Char) (nls : Nat)
    (dev : cn_queue_dev) (h : cn_queue_alloc_dev kz wq name nls = some dev)
    (ops : List queue_op) : unique_ids (run_ops dev ops).queue_list := by
  apply run_ops_unique
  unfold cn_queue_alloc_dev at h
  cases kz <;> cases wq <;> simp at h
  subst h
  simp [unique_ids]

/-- Witness of C1: add, duplicate add, remove and add again of `{1, 100}` on the
queue "cqueue". -/
theorem queue_ids_unique_after_ops_witness :
    cn_queue_alloc_dev true true ['c', 'q', 'u', 'e', 'u', 'e'] 5 = some cqueue ∧
    unique_ids (run_ops cqueue
      [queue_op.add (some 4096) ['h', '1'] id_1_100 9,
       queue_op.add (some 8192) ['h', '2'] id_1_100 10,
       queue_op.del id_1_100,
       queue_op.add (some 8192) ['h', '1'] id_1_100 9]).queue_list :=
  ⟨rfl, queue_ids_unique_after_ops true true ['c', 'q', 'u', 'e', 'u', 'e'] 5 cqueue rfl _⟩

/-- C2 as stated fails: on a queue that holds an entry for `{1, 100}`, an add of
`{1, 100}` whose `kzalloc` fails returns `-ENOMEM`, not `-EINVAL`. -/
theorem add_duplicate_enomem :
    (∃ e ∈ cqueue_h1.queue_list, cn_cb_equal e.id.id id_1_100 = true) ∧
    (cn_queue_add_callback cqueue_h1 none ['h', '1'] id_1_100 9).1 = -ENOMEM ∧
    (cn_queue_add_callback cqueue_h1 none ['h', '1'] id_1_100 9).1 ≠ -EINVAL := by
  decide

/-- C2, amended: on a queue that holds an entry with identifier `id`,
`cn_queue_add_callback` returns `-EINVAL` when the new entry could be allocated
and `-ENOMEM` when it could not; in both cases the collection keeps its order
and the address, name, identifier, handler, seq, group and socket of every
entry, the reference count is what it was, and a queue with no dispatch
outstanding is left exactly as it was. -/
theorem add_duplicate_rejected (dev : cn_queue_dev) (p : Option Nat) (name : List Char)
    (id : cb_id) (callback : Nat)
    (h : ∃ e ∈ dev.queue_list, cn_cb_equal e.id.id id = true) :
    (cn_queue_add_callback dev p name id callback).1
        = (if p.isSome then -EINVAL else -ENOMEM) ∧
    (cn_queue_add_callback dev p name id callback).2.1.queue_list.map fixed_fields
        = dev.queue_list.map fixed_fields ∧
    (cn_queue_add_callback dev p name id callback).2.1.refcnt = dev.refcnt ∧
    (dev.cn_queue = [] → (cn_queue_add_callback dev p name id callback).2.1 = dev) := by
  have hf : dev.queue_list.any (fun c => cn_cb_equal c.id.id id) = true := by
    simpa [List.any_eq_true] using h
  cases p with
  | none => simp [cn_queue_add_callback, cn_queue_alloc_callback_entry]
  | some a =>
    simp only [cn_queue_add_callback, cn_queue_alloc_callback_entry, hf, if_true]
    refine ⟨by simp, cn_queue_free_callback_fixed _ _, ?_, ?_⟩
    · rw [cn_queue_free_callback_refcnt]; simp
    · intro hq
      rw [cn_queue_free_callback_idle _ _ (by simpa using hq)]
      cases dev; simp

/-- Witness of C2 amended: a second add of `{1, 100}` on `cqueue_h1`. -/
theorem add_duplicate_rejected_witness :
    (∃ e ∈ cqueue_h1.queue_list, cn_cb_equal e.id.id id_1_100 = true) ∧
    (cn_queue_add_callback cqueue_h1 (some 8192) ['h', '2'] id_1_100 10).1 = -EINVAL ∧
    (cn_queue_add_callback cqueue_h1 (some 8192) ['h', '2'] id_1_100 10).2.1 = cqueue_h1 :=
  ⟨by decide,
   (add_duplicate_rejected cqueue_h1 (some 8192) ['h', '2'] id_1_100 10 (by decide)).1,
   (add_duplicate_rejected cqueue_h1 (some 8192) ['h', '2'] id_1_100 10 (by decide)).2.2.2 rfl⟩

/-- C6: on a queue with unique identifiers, allocation succeeding,
`cn_queue_add_callback` returns 0 exactly when no entry with identifier `id` is
present; so an add of an absent `id` returns 0, the same add repeated at once
returns `-EINVAL`, and after `cn_queue_del_callback` of `id` a further add of
`id` returns 0. -/
theorem add_remove_add (dev : cn_queue_dev) (hu : unique_ids dev.queue_list) (id : cb_id)
    (name : List Char) (callback a1 a2 a3 : Nat) :
    ((cn_queue_add_callback dev (some a1) name id callback).1 = 0 ↔
       ∀ e ∈ dev.queue_list, cn_cb_equal e.id.id id = false) ∧
    ((∀ e ∈ dev.queue_list, cn_cb_equal e.id.id id = false) →
       (cn_queue_add_callback dev (some a1) name id callback).1 = 0 ∧
       (cn_queue_add_callback
          (cn_queue_add_callback dev (some a1) name id callback).2.1
          (some a2) name id callback).1 = -EINVAL ∧
       (cn_queue_add_callback
          (cn_queue_del_callback
            (cn_queue_add_callback dev (some a1) name id callback).2.1 id).1
          (some a3) name id callback).1 = 0) := by
  have hiff : (cn_queue_add_callback dev (some a1) name id callback).1 = 0 ↔
       ∀ e ∈ dev.queue_list, cn_cb_equal e.id.id id = false := by
    rw [cn_queue_add_callback_ret]
    by_cases hf : dev.queue_list.any (fun c => cn_cb_equal c.id.id id) = true
    · simp only [hf, if_true]
      constructor
      · intro h; simp [EINVAL] at h
      · intro h
        obtain ⟨x, hx, hx2⟩ := List.any_eq_true.mp hf
        rw [h x hx] at hx2; simp at hx2
    · simp only [hf]
      simp only [Bool.not_eq_true] at hf
      simp only [Bool.false_eq_true, if_false, true_iff]
      intro e he
      have := List.any_eq_false.mp hf e he
      simpa using this
  refine ⟨hiff, ?_⟩
  intro habs
  have hf : dev.queue_list.any (fun c => cn_cb_equal c.id.id id) = false := by
    simp only [List.any_eq_false]
    intro x hx; simp [habs x hx]
  refine ⟨hiff.mpr habs, ?_, ?_⟩
  · rw [cn_queue_add_callback_ret, cn_queue_add_callback_present dev a1 name id callback hf]
    simp
  · rw [cn_queue_add_callback_ret,
      cn_queue_del_callback_absent _ id
        (cn_queue_add_callback_unique dev (some a1) name id callback hu)]
    simp

/-- Witness of C6: identifier `{1, 100}`, name "h1", on the empty queue: the
first add returns 0, the second `-EINVAL`, the add after the remove 0. -/
theorem add_remove_add_witness :
    unique_ids cqueue.queue_list ∧
    (cn_queue_add_callback cqueue (some 4096) ['h', '1'] id_1_100 9).1 = 0 ∧
    (cn_queue_add_callback
       (cn_queue_add_callback cqueue (some 4096) ['h', '1'] id_1_100 9).2.1
       (some 8192) ['h', '1'] id_1_100 9).1 = -EINVAL ∧
    (cn_queue_add_callback
       (cn_queue_del_callback
         (cn_queue_add_callback cqueue (some 4096) ['h', '1'] id_1_100 9).2.1 id_1_100).1
       (some 12288) ['h', '1'] id_1_100 9).1 = 0 :=
  ⟨by decide,
   (add_remove_add cqueue (by decide) id_1_100 ['h', '1'] 9 4096 8192 12288).2 (by decide)⟩

/-- C7: when no entry carries the identifier `id`, `cn_queue_del_callback`
leaves the whole queue (collection, its order, reference count, work queue) as
it was and runs nothing. -/
theorem del_absent_noop (dev : cn_queue_dev) (id : cb_id)
    (h : ∀ e ∈ dev.queue_list, cn_cb_equal e.id.id id = false) :
    cn_queue_del_callback dev id = (dev, []) := by
  simp [cn_queue_del_callback, list_del_first_none id _ h]

/-- Witness of C7: removing `{2, 100}` from the queue that holds `{1, 100}`. -/
theorem del_absent_noop_witness :
    (∀ e ∈ cqueue_h1.queue_list, cn_cb_equal e.id.id { idx := 2, val := 100 } = false) ∧
    cn_queue_del_callback cqueue_h1 { idx := 2, val := 100 } = (cqueue_h1, []) :=
  ⟨by decide, del_absent_noop cqueue_h1 { idx := 2, val := 100 } (by decide)⟩

/-! ## Claims about notification and control messages -/

/-- C3, the code at the scenario of the claim: with the one subscription
idx-range [10, 20), val-range [0, 5), group 7, `cn_notify` for `{15, 3}` sends
nothing, although both ranges cover the identifier: the idx loop is left by
`break` with the record pointer on the idx-range that matched, and the val loop
looks at that record instead of the val-range.  For `{15, 15}` a frame is sent
to group 7, although the val-range does not cover 15. -/
theorem cn_notify_scans_val_from_matched_idx :
    cn_notify_scan 15 sub_10_20_0_5.msg.data 1 0 = some (true, 0) ∧
    cn_notify_scan 3 sub_10_20_0_5.msg.data 1 0 = some (false, 1) ∧
    cn_notify cqueue (fun _ => true) { idx := 15, val := 3 } 0 [sub_10_20_0_5] = some [] ∧
    cn_notify cqueue (fun _ => true) { idx := 25, val := 3 } 0 [sub_10_20_0_5] = some [] ∧
    cn_notify cqueue (fun _ => true) { idx := 15, val := 15 } 0 [sub_10_20_0_5]
      = some [{ group := 7, nlmsg_seq := 0,
                msg := { id := { idx := 15, val := 15 }, seq := 0, ack := 0, len := 0,
                         data := none } }] := by
  decide

/-- C5, the code at a message whose counts wrap: the message of 16 bytes that
declares `2 ^ 29` idx-ranges and data length 0 violates
`msg.len = sizeof(header) + (idx + val) * sizeof(record)` in exact arithmetic,
yet `cn_callback` stores it in the empty registry, with a 64-bit and with a
32-bit `size_t`. -/
theorem cn_callback_accepts_wrapped_counts :
    msg_wrapped.len ≠ SIZEOF_CN_CTL_MSG +
      (ctl_wrapped.idx_notify_num + ctl_wrapped.val_notify_num) * SIZEOF_CN_NOTIFY_REQ ∧
    cn_callback 64 24 true msg_wrapped [] = some [{ msg := ctl_wrapped }] ∧
    cn_callback 32 12 true msg_wrapped [] = some [{ msg := ctl_wrapped }] := by
  decide

/-- C8, the code at an identifier that is not registered: the registry holds the
subscription that `cn_callback` stored for idx-range [10, 20), val-ranges [0, 5)
and [100, 101), group 7, the queue is empty; `cn_del_callback` of `{15, 3}`
leaves queue and registry as they were and broadcasts one frame with ack 1 to
group 7. -/
theorem cn_del_callback_notifies_unregistered :
    cn_callback 64 24 true msg_sub_10_20_0_5_100 [] = some [sub_10_20_0_5_100] ∧
    (∀ e ∈ cqueue.queue_list, cn_cb_equal e.id.id { idx := 15, val := 3 } = false) ∧
    cn_del_callback { cbdev := cqueue, notify_list := [sub_10_20_0_5_100] } (fun _ => true)
        { idx := 15, val := 3 }
      = some ({ cbdev := cqueue, notify_list := [sub_10_20_0_5_100] }, [],
              [{ group := 7, nlmsg_seq := 0,
                 msg := { id := { idx := 15, val := 3 }, seq := 0, ack := 1, len := 0,
                          data := none } }]) := by
  decide

/-! ## Lemmas: comparison of control messages -/

theorem cn_notify_req_eq_iff (r1 r2 : cn_notify_req) :
    ¬ (r1.first ≠ r2.first ∨ r1.range ≠ r2.range) ↔ r1 = r2 := by
  cases r1; cases r2; simp

/-- A comparison loop that stays inside both record lists either runs to its end,
and then the records it looked at agree, or returns 0 at a record that differs. -/
theorem cn_ctl_msg_equals_loop_spec (d1 d2 : List cn_notify_req) (n req : Nat)
    (h1 : req + n ≤ d1.length) (h2 : req + n ≤ d2.length) :
    (cn_ctl_msg_equals_loop d1 d2 n req = cmp_result.same (req + n) ∧
       ∀ k, req ≤ k → k < req + n → d1[k]? = d2[k]?) ∨
    (cn_ctl_msg_equals_loop d1 d2 n req = cmp_result.differ ∧
       ∃ k, req ≤ k ∧ k < req + n ∧ d1[k]? ≠ d2[k]?) := by
  induction n generalizing req with
  | zero =>
    left
    refine ⟨rfl, ?_⟩
    intro k hk1 hk2; omega
  | succ n ih =>
    have hl1 : req < d1.length := by omega
    have hl2 : req < d2.length := by omega
    have e1 : d1[req]? = some d1[req] := List.getElem?_eq_getElem hl1
    have e2 : d2[req]? = some d2[req] := List.getElem?_eq_getElem hl2
    by_cases hd : d1[req].first ≠ d2[req].first ∨ d1[req].range ≠ d2[req].range
    · right
      refine ⟨?_, req, le_refl _, by omega, ?_⟩
      · simp only [cn_ctl_msg_equals_loop, e1, e2]
        rw [if_pos hd]
      · rw [e1, e2]
        intro hh
        have hh2 : d1[req] = d2[req] := Option.some.inj hh
        exact ((cn_notify_req_eq_iff _ _).mpr hh2) hd
    · have heq : d1[req] = d2[req] := (cn_notify_req_eq_iff _ _).mp hd
      have hstep : cn_ctl_msg_equals_loop d1 d2 (n + 1) req
          = cn_ctl_msg_equals_loop d1 d2 n (req + 1) := by
        simp only [cn_ctl_msg_equals_loop, e1, e2]
        rw [if_neg hd]
      rcases ih (req + 1) (by omega) (by omega) with ⟨hs, hall⟩ | ⟨hs, k, hk1, hk2, hk3⟩
      · left
        refine ⟨?_, ?_⟩
        · rw [hstep, hs]; congr 1; omega
        · intro k hk1 hk2
          by_cases hk : k = req
          · subst hk; rw [e1, e2, heq]
          · exact hall k (by omega) (by omega)
      · right
        exact ⟨by rw [hstep, hs], k, by omega, by omega, hk3⟩

/-- On well-formed control messages `cn_ctl_msg_equals` reads no record that is
not there and returns 1 exactly when counts, length and all range records are
the same. -/
theorem cn_ctl_msg_equals_well_formed (w : Nat) (hw : 32 ≤ w) (m1 m2 : cn_ctl_msg)
    (h1 : well_formed m1) (h2 : well_formed m2) :
    cn_ctl_msg_equals w m1 m2 = some (same_request m1 m2) := by
  obtain ⟨hl1, hn1, hb1⟩ := h1
  obtain ⟨hl2, hn2, hb2⟩ := h2
  unfold cn_ctl_msg_equals same_request
  by_cases hi : m1.idx_notify_num = m2.idx_notify_num
  swap
  · simp [hi]
  by_cases hv : m1.val_notify_num = m2.val_notify_num
  swap
  · simp [hi, hv]
  by_cases hlen : m1.len = m2.len
  swap
  · simp [hi, hv, hlen]
  have hpow : 2 ^ 32 ≤ 2 ^ w := Nat.pow_le_pow_right (by norm_num) hw
  simp only [SIZEOF_CN_NOTIFY_REQ, SIZEOF_CN_CTL_MSG] at hn1 hb1 hn2 hb2
  have hs : (m1.idx_notify_num + m1.val_notify_num) % 2 ^ 32
      = m1.idx_notify_num + m1.val_notify_num := Nat.mod_eq_of_lt (by omega)
  have hc : ((m1.idx_notify_num + m1.val_notify_num) % 2 ^ 32 * SIZEOF_CN_NOTIFY_REQ) % 2 ^ w
      = m1.len := by
    rw [hs, SIZEOF_CN_NOTIFY_REQ, ← hn1]
    exact Nat.mod_eq_of_lt (by omega)
  simp only [hi, hv, hlen, ne_eq, not_true_eq_false, if_false, true_and]
  rw [← hi, ← hv, ← hlen, hc]
  simp only [not_true_eq_false, if_false]
  have hd2 : m2.data.length = m1.idx_notify_num + m1.val_notify_num := by rw [hl2, hi, hv]
  rcases cn_ctl_msg_equals_loop_spec m1.data m2.data m1.idx_notify_num 0 (by omega) (by omega)
    with ⟨hs1, ha1⟩ | ⟨hs1, k, hk1, hk2, hk3⟩
  · rw [hs1]
    simp only [Nat.zero_add] at ha1 ⊢
    rcases cn_ctl_msg_equals_loop_spec m1.data m2.data m1.val_notify_num m1.idx_notify_num
        (by omega) (by omega) with ⟨hs2, ha2⟩ | ⟨hs2, k, hk1, hk2, hk3⟩
    · rw [hs2]
      have hdata : m1.data = m2.data := by
        apply List.ext_getElem?
        intro k
        by_cases hk : k < m1.idx_notify_num
        · exact ha1 k (Nat.zero_le _) hk
        · by_cases hk2 : k < m1.idx_notify_num + m1.val_notify_num
          · exact ha2 k (by omega) hk2
          · rw [List.getElem?_eq_none (by omega), List.getElem?_eq_none (by omega)]
      simp [hdata]
    · rw [hs2]
      have hdata : m1.data ≠ m2.data := fun hh => hk3 (by rw [hh])
      simp [hdata]
  · rw [hs1]
    have hdata : m1.data ≠ m2.data := fun hh => hk3 (by rw [hh])
    simp [hdata]

/-- A record that `cn_callback` stored and a well-formed message: the comparison
reads no record that is not there and returns 1 exactly when counts, length and
all range records are the same. -/
theorem cn_ctl_msg_equals_recorded (w : Nat) (hw : 32 ≤ w) (m1 m2 : cn_ctl_msg)
    (h1 : recorded m1) (h2 : well_formed m2) :
    cn_ctl_msg_equals w m1 m2 = some (same_request m1 m2) := by
  by_cases hh : m1.idx_notify_num = m2.idx_notify_num ∧ m1.val_notify_num = m2.val_notify_num ∧
      m1.len = m2.len
  · obtain ⟨hi, hv, hlen⟩ := hh
    apply cn_ctl_msg_equals_well_formed w hw m1 m2 _ h2
    obtain ⟨hl2, hn2, hb2⟩ := h2
    unfold recorded at h1
    simp only [SIZEOF_CN_NOTIFY_REQ, SIZEOF_CN_CTL_MSG] at h1 hn2 hb2
    refine ⟨?_, ?_, ?_⟩
    · omega
    · simp only [SIZEOF_CN_NOTIFY_REQ]; omega
    · simp only [SIZEOF_CN_CTL_MSG]; omega
  · unfold cn_ctl_msg_equals same_request
    by_cases hi : m1.idx_notify_num = m2.idx_notify_num
    swap
    · simp [hi]
    by_cases hv : m1.val_notify_num = m2.val_notify_num
    swap
    · simp [hi, hv]
    have hlen : m1.len ≠ m2.len := fun hlen => hh ⟨hi, hv, hlen⟩
    simp [hi, hv, hlen]

theorem cn_callback_remove_recorded (w : Nat) (hw : 32 ≤ w) (ctl : cn_ctl_msg)
    (hwf : well_formed ctl) (R : List cn_ctl_entry) (hR : ∀ e ∈ R, recorded e.msg) :
    cn_callback_remove w ctl R = some (R.filter (fun e => !same_request e.msg ctl)) := by
  induction R with
  | nil => rfl
  | cons ent rest ih =>
    have h1 := cn_ctl_msg_equals_recorded w hw ent.msg ctl
      (hR ent (List.mem_cons_self _ _)) hwf
    have h2 := ih (fun e he => hR e (List.mem_cons_of_mem _ he))
    simp only [cn_callback_remove, h1, h2]
    cases hsame : same_request ent.msg ctl <;> simp [List.filter_cons, hsame]

theorem cn_callback_remove_subset (w : Nat) (ctl : cn_ctl_msg) (R R1 : List cn_ctl_entry)
    (h : cn_callback_remove w ctl R = some R1) : ∀ e ∈ R1, e ∈ R := by
  induction R generalizing R1 with
  | nil =>
    simp only [cn_callback_remove, Option.some.injEq] at h
    subst h; simp
  | cons ent rest ih =>
    simp only [cn_callback_remove] at h
    cases he : cn_ctl_msg_equals w ent.msg ctl with
    | none => simp [he] at h
    | some eq =>
      cases hr : cn_callback_remove w ctl rest with
      | none => simp [he, hr] at h
      | some rest1 =>
        simp only [he, hr, Option.some.injEq] at h
        subst h
        intro e hmem
        cases eq with
        | true =>
          simp only [if_true] at hmem
          exact List.mem_cons_of_mem _ (ih rest1 hr e hmem)
        | false =>
          simp only [Bool.false_eq_true, if_false] at hmem
          rcases List.mem_cons.mp hmem with rfl | hmem
          · exact List.mem_cons_self _ _
          · exact List.mem_cons_of_mem _ (ih rest1 hr e hmem)

theorem cn_callback_size_mod_eight (w : Nat) (hw : 32 ≤ w) (ctl : cn_ctl_msg) :
    cn_callback_size w ctl % 8 = 0 := by
  have h8 : 8 ∣ 2 ^ w := by
    have := Nat.pow_dvd_pow 2 (show 3 ≤ w by omega)
    simpa using this
  have h32 : 8 ∣ 2 ^ 32 := by norm_num
  unfold cn_callback_size
  rw [Nat.mod_mod_of_dvd _ h32, Nat.mod_mod_of_dvd _ h8, Nat.add_mod, Nat.mod_mod_of_dvd _ h8]
  simp [SIZEOF_CN_CTL_MSG, SIZEOF_CN_NOTIFY_REQ, Nat.mul_mod]

/-- Every record of the registry was stored by `cn_callback`: whatever message
with a `u32` length field `cn_callback` handles, the records of the registry
afterwards carry as many range records as their declared length says. -/
theorem cn_callback_keeps_recorded (w : Nat) (hw : 32 ≤ w) (sizeof_ent : Nat)
    (ent_ok : Bool) (msg : cn_msg) (R R1 : List cn_ctl_entry)
    (hR : ∀ e ∈ R, recorded e.msg)
    (hu : ∀ ctl, msg.data = some ctl → ctl.len < 2 ^ 32)
    (h : cn_callback w sizeof_ent ent_ok msg R = some R1) :
    ∀ e ∈ R1, recorded e.msg := by
  cases hd : msg.data with
  | none =>
    simp only [cn_callback, hd] at h
    split_ifs at h
    simp only [Option.some.injEq] at h
    subst h; exact hR
  | some ctl =>
    have hlen32 := hu ctl hd
    simp only [cn_callback, hd] at h
    split_ifs at h with c1 c2 c3 c4 c5 c6 c7
    · simp only [Option.some.injEq] at h; subst h; exact hR
    · simp only [Option.some.injEq] at h; subst h; exact hR
    · simp only [Option.some.injEq] at h; subst h; exact hR
    · intro e he
      exact hR e (cn_callback_remove_subset w ctl R R1 h e he)
    · simp only [Option.some.injEq] at h; subst h; exact hR
    · simp only [Option.some.injEq] at h
      subst h
      intro e he
      rcases List.mem_cons.mp he with rfl | he
      swap
      · exact hR e he
      have hpow : 2 ^ 32 ≤ 2 ^ w := Nat.pow_le_pow_right (by norm_num) hw
      have h8 := cn_callback_size_mod_eight w hw ctl
      simp only [ne_eq, not_not] at c2 c3
      simp only [SIZEOF_CN_CTL_MSG, SIZEOF_CN_NOTIFY_REQ] at c1 c3 c7 ⊢
      have hexact : ctl.len + 16 = cn_callback_size w ctl := by
        by_cases hlt : ctl.len + 16 < 2 ^ w
        · rw [Nat.mod_eq_of_lt hlt] at c3; omega
        · rw [Nat.mod_eq_sub_mod (by omega), Nat.mod_eq_of_lt (by omega)] at c3
          omega
      unfold recorded
      simp only [SIZEOF_CN_NOTIFY_REQ, List.length_take]
      omega

theorem cn_callback_size_well_formed (w : Nat) (hw : 32 ≤ w) (ctl : cn_ctl_msg)
    (hwf : well_formed ctl) : cn_callback_size w ctl = SIZEOF_CN_CTL_MSG + ctl.len := by
  obtain ⟨-, hn, hb⟩ := hwf
  have hpow : 2 ^ 32 ≤ 2 ^ w := Nat.pow_le_pow_right (by norm_num) hw
  simp only [SIZEOF_CN_NOTIFY_REQ, SIZEOF_CN_CTL_MSG] at hn hb ⊢
  unfold cn_callback_size
  simp only [SIZEOF_CN_NOTIFY_REQ, SIZEOF_CN_CTL_MSG]
  have hs : (ctl.idx_notify_num + ctl.val_notify_num) % 2 ^ 32
      = ctl.idx_notify_num + ctl.val_notify_num := Nat.mod_eq_of_lt (by omega)
  rw [hs, ← hn]
  rw [Nat.mod_eq_of_lt (a := ctl.len) (by omega), Nat.mod_eq_of_lt (a := 16 + ctl.len) (by omega),
    Nat.mod_eq_of_lt hb]

/-- C4: on a registry of records stored by earlier subscribe messages (each
carries the range records its declared length says, `recorded`), a well-formed
control message with group 0 handled by `cn_callback` removes exactly the
records whose `idx_notify_num`, `val_notify_num`, `len` and range records, in
order, equal those of the message; all other records stay, unchanged and in
their order. -/
theorem unsubscribe_removes_exact_matches (w : Nat) (hw : 32 ≤ w) (sizeof_ent : Nat)
    (ent_ok : Bool) (msg : cn_msg) (ctl : cn_ctl_msg) (R : List cn_ctl_entry)
    (hR : ∀ e ∈ R, recorded e.msg) (hd : msg.data = some ctl) (hwf : well_formed ctl)
    (hlen : msg.len = SIZEOF_CN_CTL_MSG + ctl.len) (hg : ctl.group = 0) :
    cn_callback w sizeof_ent ent_ok msg R
      = some (R.filter (fun e => !same_request e.msg ctl)) := by
  have hsize := cn_callback_size_well_formed w hw ctl hwf
  have hpow : 2 ^ 32 ≤ 2 ^ w := Nat.pow_le_pow_right (by norm_num) hw
  have hb := hwf.2.2
  have hmod : (ctl.len + SIZEOF_CN_CTL_MSG) % 2 ^ w = msg.len := by
    rw [hlen, Nat.add_comm]
    exact Nat.mod_eq_of_lt (by omega)
  have hge : ¬ msg.len < SIZEOF_CN_CTL_MSG := by omega
  unfold cn_callback
  rw [if_neg hge, hd]
  simp only [hsize, hmod, hlen, hg, ne_eq, not_true_eq_false, if_false, if_true]
  exact cn_callback_remove_recorded w hw ctl hwf R hR

/-- Witness of C4: from the registry that holds the scenario's subscription
twice, with the subscription with swapped range records between, the unsubscribe
message removes both copies and leaves the swapped one. -/
theorem unsubscribe_removes_exact_matches_witness :
    cn_callback 64 24 true msg_unsub_10_20_0_5 [sub_10_20_0_5, sub_0_5_10_20, sub_10_20_0_5]
      = some [sub_0_5_10_20] :=
  unsubscribe_removes_exact_matches 64 (by decide) 24 true msg_unsub_10_20_0_5
    { sub_10_20_0_5.msg with group := 0 } [sub_10_20_0_5, sub_0_5_10_20, sub_10_20_0_5]
    (by decide) rfl (by decide) rfl rfl

/-! ## Lemmas: the scan of `cn_call_callback` and the run of the work queue -/

theorem cn_call_callback_scan_none (wq : List work_item) (w : Option Nat) (msg : cn_msg)
    (dd data : Nat) (l : List cn_callback_entry)
    (h : ∀ e ∈ l, cn_cb_equal e.id.id msg.id = false) :
    cn_call_callback_scan wq w msg dd data l = (-ENODEV, l, wq) := by
  induction l with
  | nil => rfl
  | cons c cs ih =>
    have hc := h c (List.mem_cons_self _ _)
    have hcs := ih (fun e he => h e (List.mem_cons_of_mem _ he))
    simp [cn_call_callback_scan, hc, hcs]

theorem cn_call_callback_scan_first (wq : List work_item) (w : Option Nat) (msg : cn_msg)
    (dd data : Nat) (pre post : List cn_callback_entry) (e : cn_callback_entry)
    (hpre : ∀ x ∈ pre, cn_cb_equal x.id.id msg.id = false)
    (he : cn_cb_equal e.id.id msg.id = true) :
    cn_call_callback_scan wq w msg dd data (pre ++ e :: post)
      = ((cn_call_callback_entry wq w msg dd data e).1,
         pre ++ (cn_call_callback_entry wq w msg dd data e).2.1 :: post,
         (cn_call_callback_entry wq w msg dd data e).2.2) := by
  induction pre with
  | nil => simp [cn_call_callback_scan, he]
  | cons c cs ih =>
    have hc := hpre c (List.mem_cons_self _ _)
    have hcs := ih (fun x hx => hpre x (List.mem_cons_of_mem _ hx))
    simp [cn_call_callback_scan, hc, hcs]

theorem cn_call_callback_entry_idle (wq : List work_item) (w : Option Nat) (msg : cn_msg)
    (dd data : Nat) (e : cn_callback_entry) (hp : e.work.pending = false)
    (hdd : e.data.ddata = 0) :
    cn_call_callback_entry wq w msg dd data e
      = (0, bound_entry msg dd data e, wq ++ [work_item.embedded e.addr]) := by
  simp [cn_call_callback_entry, queue_work, hp, hdd, bound_entry]

theorem cn_call_callback_entry_busy (wq : List work_item) (a : Nat) (msg : cn_msg)
    (dd data : Nat) (e : cn_callback_entry)
    (hb : e.work.pending = true ∨ e.data.ddata ≠ 0) :
    cn_call_callback_entry wq (some a) msg dd data e
      = (0, e, wq ++ [fallback_unit a msg dd data e]) := by
  have hc : (!e.work.pending && e.data.ddata == 0) = false := by
    rcases hb with hb | hb
    · simp [hb]
    · simp [hb]
  simp [cn_call_callback_entry, queue_work, hc, fallback_unit]

theorem cn_call_callback_entry_busy_frame (wq : List work_item) (w : Option Nat) (msg : cn_msg)
    (dd data : Nat) (e : cn_callback_entry)
    (hb : e.work.pending = true ∨ e.data.ddata ≠ 0) :
    (cn_call_callback_entry wq w msg dd data e).2.1 = e := by
  have hc : (!e.work.pending && e.data.ddata == 0) = false := by
    rcases hb with hb | hb
    · simp [hb]
    · simp [hb]
  cases w <;> simp [cn_call_callback_entry, hc]

theorem flush_workqueue_append (q1 q2 : List work_item) (objs : List cn_callback_entry) :
    flush_workqueue (q1 ++ q2) objs
      = ((flush_workqueue q2 (flush_workqueue q1 objs).1).1,
         (flush_workqueue q1 objs).2 ++ (flush_workqueue q2 (flush_workqueue q1 objs).1).2) := by
  induction q1 generalizing objs with
  | nil => simp [flush_workqueue]
  | cons wk rest ih => simp [flush_workqueue, ih]

theorem run_embedded_first (pre post : List cn_callback_entry) (e : cn_callback_entry)
    (hpre : ∀ x ∈ pre, x.addr ≠ e.addr) :
    run_embedded e.addr (pre ++ e :: post)
      = (pre ++ finished_entry e :: post,
         [event.callback e.data.callback e.data.callback_priv,
          event.destruct_data e.data.destruct_data e.data.ddata,
          event.kfree e.data.free]) := by
  induction pre with
  | nil => simp [run_embedded, cn_queue_wrapper, finished_entry]
  | cons c cs ih =>
    have hc := hpre c (List.mem_cons_self _ _)
    have hcs := ih (fun x hx => hpre x (List.mem_cons_of_mem _ hx))
    simp [run_embedded, hc, hcs]

/-! ## Claims about the inbound path -/

/-- C10: `cn_call_callback` returns `-ENODEV` and leaves the queue, its entries
and its work queue as they were when no entry has the identifier of the message;
when the first entry with that identifier has an idle embedded slot (not pending,
`ddata` null) it returns 0, binds message, destructor and data into that entry
only, and appends exactly one unit, the embedded one of that entry, to the work
queue; every other entry is as it was. -/
theorem call_callback_routes (dev : cn_queue_dev) (w : Option Nat) (msg : cn_msg)
    (destruct_data data : Nat) :
    ((∀ e ∈ dev.queue_list, cn_cb_equal e.id.id msg.id = false) →
       cn_call_callback dev w msg destruct_data data = (-ENODEV, dev)) ∧
    (∀ (pre post : List cn_callback_entry) (e : cn_callback_entry),
       dev.queue_list = pre ++ e :: post →
       (∀ x ∈ pre, cn_cb_equal x.id.id msg.id = false) →
       cn_cb_equal e.id.id msg.id = true →
       e.work.pending = false → e.data.ddata = 0 →
       cn_call_callback dev w msg destruct_data data
         = (0, { dev with
                   queue_list := pre ++ bound_entry msg destruct_data data e :: post
                   cn_queue := dev.cn_queue ++ [work_item.embedded e.addr] })) := by
  constructor
  · intro h
    simp [cn_call_callback, cn_call_callback_scan_none _ _ _ _ _ _ h]
  · intro pre post e hl hpre he hp hdd
    simp [cn_call_callback, hl, cn_call_callback_scan_first _ _ _ _ _ pre post e hpre he,
      cn_call_callback_entry_idle _ _ _ _ _ e hp hdd]

/-- Witness of C10: on the queue that holds `{1, 100}`, a message for `{2, 100}`
is refused with `-ENODEV`, and `msg_a` for `{1, 100}` is bound to the idle entry
and its embedded unit submitted. -/
theorem call_callback_routes_witness :
    cn_call_callback cqueue_h1 none { msg_a with id := { idx := 2, val := 100 } } 77 500
      = (-ENODEV, cqueue_h1) ∧
    cn_call_callback cqueue_h1 none msg_a 77 500
      = (0, { cqueue_h1 with
                queue_list := [] ++ bound_entry msg_a 77 500 entry_h1 :: []
                cn_queue := cqueue_h1.cn_queue ++ [work_item.embedded entry_h1.addr] }) :=
  ⟨(call_callback_routes cqueue_h1 none { msg_a with id := { idx := 2, val := 100 } } 77 500).1
     (by decide),
   (call_callback_routes cqueue_h1 none msg_a 77 500).2 [] [] entry_h1 rfl (by decide)
     (by decide) rfl rfl⟩

/-- C9: when the first entry `e` with the identifier of the message has a busy
embedded slot (work pending or `ddata` not null), `cn_call_callback` leaves
every entry (so `callback_priv`, `ddata` and `destruct_data` of `e`) as it was,
whatever `kmalloc` returns; when `kmalloc` succeeds it returns 0 and appends one
standalone unit with the handler of `e`, the message and the given destructor
and data.  When the work queue then runs, the units submitted before run as they
would have run without the call, and the standalone unit calls the handler once
on its message, the destructor once on its data and frees itself; with the
embedded unit of `e` in flight, the trace is: handler of `e` on the payload of
`e`, destructor of `e` on `ddata` of `e`, then handler on the new message, given
destructor on the given data. -/
theorem busy_slot_fallback (dev : cn_queue_dev) (a : Nat) (msg : cn_msg)
    (destruct_data data : Nat) (pre post : List cn_callback_entry) (e : cn_callback_entry)
    (hl : dev.queue_list = pre ++ e :: post)
    (hpre : ∀ x ∈ pre, cn_cb_equal x.id.id msg.id = false)
    (he : cn_cb_equal e.id.id msg.id = true)
    (hbusy : e.work.pending = true ∨ e.data.ddata ≠ 0) :
    (∀ w : Option Nat,
       (cn_call_callback dev w msg destruct_data data).2.queue_list = dev.queue_list) ∧
    cn_call_callback dev (some a) msg destruct_data data
      = (0, { dev with
                cn_queue := dev.cn_queue ++ [fallback_unit a msg destruct_data data e] }) ∧
    (∀ objs : List cn_callback_entry,
       flush_workqueue (dev.cn_queue ++ [fallback_unit a msg destruct_data data e]) objs
         = ((flush_workqueue dev.cn_queue objs).1,
            (flush_workqueue dev.cn_queue objs).2 ++
              [event.callback e.data.callback (some msg),
               event.destruct_data destruct_data data,
               event.kfree a])) ∧
    (dev.cn_queue = [work_item.embedded e.addr] → (∀ x ∈ pre, x.addr ≠ e.addr) →
       flush_workqueue (cn_call_callback dev (some a) msg destruct_data data).2.cn_queue
           (cn_call_callback dev (some a) msg destruct_data data).2.queue_list
         = (pre ++ finished_entry e :: post,
            [event.callback e.data.callback e.data.callback_priv,
             event.destruct_data e.data.destruct_data e.data.ddata,
             event.kfree e.data.free,
             event.callback e.data.callback (some msg),
             event.destruct_data destruct_data data,
             event.kfree a])) := by
  have hframe : ∀ w : Option Nat,
      (cn_call_callback dev w msg destruct_data data).2.queue_list = dev.queue_list := by
    intro w
    simp [cn_call_callback, hl, cn_call_callback_scan_first _ _ _ _ _ pre post e hpre he,
      cn_call_callback_entry_busy_frame _ _ _ _ _ e hbusy]
  have hcall : cn_call_callback dev (some a) msg destruct_data data
      = (0, { dev with
                cn_queue := dev.cn_queue ++ [fallback_unit a msg destruct_data data e] }) := by
    simp [cn_call_callback, hl, cn_call_callback_scan_first _ _ _ _ _ pre post e hpre he,
      cn_call_callback_entry_busy _ _ _ _ _ e hbusy]
  have hrun : ∀ objs : List cn_callback_entry,
       flush_workqueue (dev.cn_queue ++ [fallback_unit a msg destruct_data data e]) objs
         = ((flush_workqueue dev.cn_queue objs).1,
            (flush_workqueue dev.cn_queue objs).2 ++
              [event.callback e.data.callback (some msg),
               event.destruct_data destruct_data data,
               event.kfree a]) := by
    intro objs
    rw [flush_workqueue_append]
    simp [flush_workqueue, run_work, fallback_unit, cn_queue_wrapper]
  refine ⟨hframe, hcall, hrun, ?_⟩
  intro hq hadr
  rw [hcall]
  simp only
  rw [hrun, hq, hl]
  simp [flush_workqueue, run_work, run_embedded_first pre post e hadr]

/-- Witness of C9: `msg_a` is in flight on the entry for `{1, 100}` (destructor 77,
data 500); `msg_b` arrives with destructor 78 and data 600 and gets the
standalone unit allocated at 20480; the work queue then calls handler 9 on
`msg_a`, destructor 77 on 500, handler 9 on `msg_b`, destructor 78 on 600. -/
theorem busy_slot_fallback_witness :
    cqueue_inflight.queue_list = [] ++ bound_entry msg_a 77 500 entry_h1 :: [] ∧
    cqueue_inflight.cn_queue = [work_item.embedded 4096] ∧
    (cn_call_callback cqueue_inflight none msg_b 78 600).2.queue_list
      = cqueue_inflight.queue_list ∧
    (cn_call_callback cqueue_inflight (some 20480) msg_b 78 600).1 = 0 ∧
    flush_workqueue (cn_call_callback cqueue_inflight (some 20480) msg_b 78 600).2.cn_queue
        (cn_call_callback cqueue_inflight (some 20480) msg_b 78 600).2.queue_list
      = ([] ++ finished_entry (bound_entry msg_a 77 500 entry_h1) :: [],
         [event.callback 9 (some msg_a), event.destruct_data 77 500, event.kfree 0,
          event.callback 9 (some msg_b), event.destruct_data 78 600, event.kfree 20480]) :=
  ⟨rfl, rfl,
   (busy_slot_fallback cqueue_inflight 20480 msg_b 78 600 [] []
       (bound_entry msg_a 77 500 entry_h1) rfl (by decide) (by decide) (by decide)).1 none,
   congrArg Prod.fst
     (busy_slot_fallback cqueue_inflight 20480 msg_b 78 600 [] []
       (bound_entry msg_a 77 500 entry_h1) rfl (by decide) (by decide) (by decide)).2.1,
   (busy_slot_fallback cqueue_inflight 20480 msg_b 78 600 [] []
       (bound_entry msg_a 77 500 entry_h1) rfl (by decide) (by decide) (by decide)).2.2.2
     rfl (by decide)⟩

/-! ## Lemmas: groups, lengths and the reference count -/

theorem length_of_fixed {l1 l2 : List cn_callback_entry}
    (h : l1.map fixed_fields = l2.map fixed_fields) : l1.length = l2.length := by
  have h2 := congrArg List.length h
  simpa using h2

theorem groups_assigned_of_fixed {l1 l2 : List cn_callback_entry}
    (h : l1.map fixed_fields = l2.map fixed_fields) (hg : groups_assigned l2) :
    groups_assigned l1 := by
  intro e he
  have hm : fixed_fields e ∈ l2.map fixed_fields := by
    rw [← h]; exact List.mem_map_of_mem _ he
  obtain ⟨e2, he2, hf⟩ := List.mem_map.mp hm
  have hg2 := hg e2 he2
  simp only [fixed_fields, Prod.mk.injEq] at hf
  obtain ⟨-, hid, -, -, hgr, -⟩ := hf
  rw [← hgr, ← hid]; exact hg2

theorem cn_queue_add_callback_groups (dev : cn_queue_dev) (p : Option Nat) (name : List Char)
    (id : cb_id) (callback : Nat) (hg : groups_assigned dev.queue_list) :
    groups_assigned (cn_queue_add_callback dev p name id callback).2.1.queue_list := by
  cases p with
  | none => simpa [cn_queue_add_callback, cn_queue_alloc_callback_entry] using hg
  | some a =>
    by_cases hf : dev.queue_list.any (fun c => cn_cb_equal c.id.id id) = true
    · simp only [cn_queue_add_callback, cn_queue_alloc_callback_entry, hf, if_true]
      exact groups_assigned_of_fixed (cn_queue_free_callback_fixed _ _) hg
    · simp only [cn_queue_add_callback, cn_queue_alloc_callback_entry, hf]
      simp only [Bool.false_eq_true, if_false]
      intro e he
      rcases List.mem_append.mp he with he | he
      · exact hg e he
      · simp only [List.mem_singleton] at he
        subst he; rfl

theorem cn_queue_del_callback_groups (dev : cn_queue_dev) (id : cb_id)
    (hg : groups_assigned dev.queue_list) :
    groups_assigned (cn_queue_del_callback dev id).1.queue_list := by
  unfold cn_queue_del_callback
  cases hr : list_del_first id dev.queue_list with
  | none => simpa using hg
  | some r =>
    obtain ⟨pre, post, h1, h2, -, -⟩ := list_del_first_some id _ r hr
    simp only
    refine groups_assigned_of_fixed (cn_queue_free_callback_fixed _ _) ?_
    simp only [h2]
    intro e he
    apply hg e
    rw [h1]
    rcases List.mem_append.mp he with he | he
    · exact List.mem_append_left _ he
    · exact List.mem_append_right _ (List.mem_cons_of_mem _ he)

theorem run_ops_groups (ops : List queue_op) (dev : cn_queue_dev)
    (hg : groups_assigned dev.queue_list) : groups_assigned (run_ops dev ops).queue_list := by
  induction ops generalizing dev with
  | nil => exact hg
  | cons op rest ih =>
    simp only [run_ops, List.foldl_cons]
    apply ih
    cases op with
    | add p name id callback => exact cn_queue_add_callback_groups dev p name id callback hg
    | del id => exact cn_queue_del_callback_groups dev id hg

theorem cn_queue_alloc_dev_empty (kz wq : Bool) (name : List Char) (nls : Nat)
    (dev : cn_queue_dev) (h : cn_queue_alloc_dev kz wq name nls = some dev) :
    dev.queue_list = [] ∧ dev.refcnt = 0 ∧ dev.cn_queue = [] := by
  unfold cn_queue_alloc_dev at h
  cases kz <;> cases wq <;> simp at h
  subst h
  simp

/-- The group scan of `cn_netlink_send`, when every entry with the identifier has
its index as group. -/
theorem cn_netlink_send_scan_spec (id : cb_id) (l : List cn_callback_entry)
    (hg : ∀ e ∈ l, cn_cb_equal e.id.id id = true → e.group = id.idx) :
    cn_netlink_send_scan id l
      = if l.any (fun c => cn_cb_equal c.id.id id) then (true, id.idx) else (false, 0) := by
  have key : ∀ (l : List cn_callback_entry) (acc : Bool × Nat),
      (∀ e ∈ l, cn_cb_equal e.id.id id = true → e.group = id.idx) →
      l.foldl (fun acc c => if cn_cb_equal c.id.id id then (true, c.group) else acc) acc
        = if l.any (fun c => cn_cb_equal c.id.id id) then (true, id.idx) else acc := by
    intro l
    induction l with
    | nil => intro acc _; rfl
    | cons c cs ih =>
      intro acc h
      have hcs := ih
      by_cases hc : cn_cb_equal c.id.id id = true
      · have hgc := h c (List.mem_cons_self _ _) hc
        simp only [List.foldl_cons, hc, if_true, List.any_cons, Bool.true_or]
        rw [ih _ (fun e he => h e (List.mem_cons_of_mem _ he)), hgc]
        split <;> rfl
      · simp only [List.foldl_cons, hc, List.any_cons]
        rw [ih _ (fun e he => h e (List.mem_cons_of_mem _ he))]
        simp
  exact key l (false, 0) hg

theorem cn_queue_add_callback_counts (dev : cn_queue_dev) (p : Option Nat) (name : List Char)
    (id : cb_id) (callback : Nat) :
    (cn_queue_add_callback dev p name id callback).2.1.refcnt
        = (if (cn_queue_add_callback dev p name id callback).1 = 0 then dev.refcnt + 1
           else dev.refcnt) ∧
    ((cn_queue_add_callback dev p name id callback).2.1.queue_list.length : Int)
        = (if (cn_queue_add_callback dev p name id callback).1 = 0
           then (dev.queue_list.length : Int) + 1 else dev.queue_list.length) := by
  cases p with
  | none => simp [cn_queue_add_callback, cn_queue_alloc_callback_entry, ENOMEM]
  | some a =>
    by_cases hf : dev.queue_list.any (fun c => cn_cb_equal c.id.id id) = true
    · simp only [cn_queue_add_callback, cn_queue_alloc_callback_entry, hf, if_true]
      rw [cn_queue_free_callback_refcnt,
        length_of_fixed (cn_queue_free_callback_fixed _ _)]
      simp [EINVAL]
    · simp [cn_queue_add_callback, cn_queue_alloc_callback_entry, hf]

theorem cn_queue_del_callback_counts (dev : cn_queue_dev) (id : cb_id) :
    (cn_queue_del_callback dev id).1.refcnt
        = (if dev.queue_list.any (fun c => cn_cb_equal c.id.id id) then dev.refcnt - 1
           else dev.refcnt) ∧
    ((cn_queue_del_callback dev id).1.queue_list.length : Int)
        = (if dev.queue_list.any (fun c => cn_cb_equal c.id.id id)
           then (dev.queue_list.length : Int) - 1 else dev.queue_list.length) := by
  unfold cn_queue_del_callback
  cases hr : list_del_first id dev.queue_list with
  | none =>
    have h := list_del_first_eq_none id _ hr
    have hf : dev.queue_list.any (fun c => cn_cb_equal c.id.id id) = false := by
      simp only [List.any_eq_false]
      intro x hx; simp [h x hx]
    simp [hf]
  | some r =>
    obtain ⟨pre, post, h1, h2, h3, h4⟩ := list_del_first_some id _ r hr
    have hf : dev.queue_list.any (fun c => cn_cb_equal c.id.id id) = true := by
      rw [h1]; simp [h4]
    simp only [hf, if_true]
    refine ⟨trivial, ?_⟩
    rw [length_of_fixed (cn_queue_free_callback_fixed _ _)]
    simp only [h2, h1, List.length_append, List.length_cons]
    push_cast
    ring

theorem run_ops_counts (ops : List queue_op) (dev : cn_queue_dev)
    (h : dev.refcnt = dev.queue_list.length) :
    (run_ops dev ops).refcnt = (run_ops dev ops).queue_list.length := by
  induction ops generalizing dev with
  | nil => exact h
  | cons op rest ih =>
    simp only [run_ops, List.foldl_cons]
    apply ih
    cases op with
    | add p name id callback =>
      obtain ⟨h1, h2⟩ := cn_queue_add_callback_counts dev p name id callback
      simp only [apply_op]
      rw [h1, h2, h]
    | del id =>
      obtain ⟨h1, h2⟩ := cn_queue_del_callback_counts dev id
      simp only [apply_op]
      rw [h1, h2, h]

theorem list_del_first_split (id : cb_id) (pre post : List cn_callback_entry)
    (e : cn_callback_entry) (hpre : ∀ x ∈ pre, cn_cb_equal x.id.id id = false)
    (he : cn_cb_equal e.id.id id = true) :
    list_del_first id (pre ++ e :: post) = some (e, pre ++ post) := by
  induction pre with
  | nil => simp [list_del_first, he]
  | cons c cs ih =>
    have hc := hpre c (List.mem_cons_self _ _)
    have hcs := ih (fun x hx => hpre x (List.mem_cons_of_mem _ hx))
    simp [list_del_first, hc, hcs]

/-! ## Claims about the outbound path and about add, remove and the reference count -/

/-- When the size of the frame has not wrapped, `cn_netlink_send` broadcasts one
frame and returns 0 if `alloc_skb` succeeds, and returns `-ENOMEM` if not. -/
theorem cn_netlink_send_frame_fits (skb_ok : Bool) (msg : cn_msg) (group : Nat)
    (hfit : NLMSG_SPACE (SIZEOF_CN_MSG + msg.len) < 2 ^ 32) :
    cn_netlink_send_frame skb_ok msg group
      = some (if skb_ok then (0, [{ group := group, nlmsg_seq := msg.seq, msg := msg }])
              else (-ENOMEM, [])) := by
  have hsize : ¬ cn_netlink_send_size msg < NLMSG_SPACE_0 + (SIZEOF_CN_MSG + msg.len) := by
    unfold cn_netlink_send_size
    rw [Nat.mod_eq_of_lt hfit]
    simp only [NLMSG_SPACE, NLMSG_ALIGN, NLMSG_SPACE_0, SIZEOF_CN_MSG]
    omega
  cases skb_ok with
  | false => simp [cn_netlink_send_frame]
  | true => simp [cn_netlink_send_frame, hsize]

/-- C11 as stated fails: on the queue reached by adding `{1, 100}`, a send of a
message for `{1, 100}` with group 0 whose `alloc_skb` fails returns `-ENOMEM`
and broadcasts no frame, although an entry with the identifier is registered. -/
theorem netlink_send_registered_enomem :
    cn_queue_alloc_dev true true ['c', 'q', 'u', 'e', 'u', 'e'] 5 = some cqueue ∧
    cqueue_h1 = run_ops cqueue [queue_op.add (some 4096) ['h', '1'] id_1_100 9] ∧
    (∃ e ∈ cqueue_h1.queue_list, cn_cb_equal e.id.id msg_a.id = true) ∧
    cn_netlink_send cqueue_h1 false msg_a 0 = some (-ENOMEM, []) := by
  decide

/-- C11, amended: on every queue reached by adds and removes from the queue
`cn_queue_alloc_dev` makes, `cn_netlink_send` with a group `g` that is not zero
broadcasts to `g` itself, whatever is registered; with `g` zero and an entry
with the identifier of the message registered it broadcasts to the group of
that entry, which is the index of the identifier; in both cases, for a message
whose frame size `NLMSG_SPACE(sizeof(*msg) + msg->len)` fits the `unsigned int
size`, one frame is broadcast and 0 returned when `alloc_skb` succeeds, and
nothing is broadcast and `-ENOMEM` returned when it fails.  With `g` zero and no
entry with the identifier it returns `-ENODEV` and broadcasts nothing. -/
theorem netlink_send_group (kz wq : Bool) (name : List Char) (nls : Nat) (dev : cn_queue_dev)
    (h : cn_queue_alloc_dev kz wq name nls = some dev) (ops : List queue_op) (msg : cn_msg)
    (g : Nat) (skb_ok : Bool) :
    (g ≠ 0 → NLMSG_SPACE (SIZEOF_CN_MSG + msg.len) < 2 ^ 32 →
       cn_netlink_send (run_ops dev ops) skb_ok msg g
         = some (if skb_ok then (0, [{ group := g, nlmsg_seq := msg.seq, msg := msg }])
                 else (-ENOMEM, []))) ∧
    (g = 0 → (∃ e ∈ (run_ops dev ops).queue_list, cn_cb_equal e.id.id msg.id = true) →
       (∀ e ∈ (run_ops dev ops).queue_list, cn_cb_equal e.id.id msg.id = true →
          e.group = msg.id.idx) ∧
       (NLMSG_SPACE (SIZEOF_CN_MSG + msg.len) < 2 ^ 32 →
          cn_netlink_send (run_ops dev ops) skb_ok msg g
            = some (if skb_ok
                    then (0, [{ group := msg.id.idx, nlmsg_seq := msg.seq, msg := msg }])
                    else (-ENOMEM, [])))) ∧
    (g = 0 → (∀ e ∈ (run_ops dev ops).queue_list, cn_cb_equal e.id.id msg.id = false) →
       cn_netlink_send (run_ops dev ops) skb_ok msg g = some (-ENODEV, [])) := by
  have hempty := cn_queue_alloc_dev_empty kz wq name nls dev h
  have hg0 : groups_assigned dev.queue_list := by
    rw [hempty.1]; intro e he; simp at he
  have hg := run_ops_groups ops dev hg0
  have hgm : ∀ e ∈ (run_ops dev ops).queue_list, cn_cb_equal e.id.id msg.id = true →
      e.group = msg.id.idx := by
    intro e he hm
    rw [hg e he, (cn_cb_equal_iff _ _).mp hm]
  have hscan := cn_netlink_send_scan_spec msg.id (run_ops dev ops).queue_list hgm
  refine ⟨?_, ?_, ?_⟩
  · intro hne hfit
    simp only [cn_netlink_send, hne, if_false]
    exact cn_netlink_send_frame_fits skb_ok msg g hfit
  · intro hz hex
    refine ⟨hgm, ?_⟩
    intro hfit
    have hany : (run_ops dev ops).queue_list.any (fun c => cn_cb_equal c.id.id msg.id) = true := by
      simpa [List.any_eq_true] using hex
    rw [hany] at hscan
    simp only [if_true] at hscan
    simp only [cn_netlink_send, hz, hscan, if_true]
    exact cn_netlink_send_frame_fits skb_ok msg msg.id.idx hfit
  · intro hz habs
    have hany : (run_ops dev ops).queue_list.any (fun c => cn_cb_equal c.id.id msg.id) = false := by
      simp only [List.any_eq_false]
      intro x hx; simp [habs x hx]
    rw [hany] at hscan
    simp only [Bool.false_eq_true, if_false] at hscan
    simp [cn_netlink_send, hz, hscan]

/-- Witness of C11 amended: on the queue reached by adding `{1, 100}`, `msg_a`
sent with group 0 goes to group 1, sent with group 7 to group 7, and a message
for `{2, 100}` sent with group 0 is refused with `-ENODEV`. -/
theorem netlink_send_group_witness :
    cn_queue_alloc_dev true true ['c', 'q', 'u', 'e', 'u', 'e'] 5 = some cqueue ∧
    cn_netlink_send (run_ops cqueue [queue_op.add (some 4096) ['h', '1'] id_1_100 9]) true
        msg_a 0
      = some (0, [{ group := 1, nlmsg_seq := 1, msg := msg_a }]) ∧
    cn_netlink_send (run_ops cqueue [queue_op.add (some 4096) ['h', '1'] id_1_100 9]) true
        msg_a 7
      = some (0, [{ group := 7, nlmsg_seq := 1, msg := msg_a }]) ∧
    cn_netlink_send (run_ops cqueue [queue_op.add (some 4096) ['h', '1'] id_1_100 9]) true
        msg_c 0
      = some (-ENODEV, []) :=
  ⟨rfl,
   ((netlink_send_group true true ['c', 'q', 'u', 'e', 'u', 'e'] 5 cqueue rfl
      [queue_op.add (some 4096) ['h', '1'] id_1_100 9] msg_a 0 true).2.1 rfl (by decide)).2
     (by decide),
   (netlink_send_group true true ['c', 'q', 'u', 'e', 'u', 'e'] 5 cqueue rfl
      [queue_op.add (some 4096) ['h', '1'] id_1_100 9] msg_a 7 true).1 (by decide) (by decide),
   (netlink_send_group true true ['c', 'q', 'u', 'e', 'u', 'e'] 5 cqueue rfl
      [queue_op.add (some 4096) ['h', '1'] id_1_100 9] msg_c 0 true).2.2 rfl (by decide)⟩

/-- C12: on a queue with no entry with identifier `id`, allocation succeeding,
`cn_queue_add_callback` returns 0 and the collection afterwards is the old one
followed by exactly one new entry, with identifier `id`, the given handler,
`seq = 0` and `group = id.idx`; the entries before keep all their fields and
their order; the reference count is one higher and nothing runs. -/
theorem add_appends_new_entry (dev : cn_queue_dev) (a : Nat) (name : List Char) (id : cb_id)
    (callback : Nat) (h : ∀ e ∈ dev.queue_list, cn_cb_equal e.id.id id = false) :
    cn_queue_add_callback dev (some a) name id callback
      = (0,
         { dev with refcnt := dev.refcnt + 1
                    queue_list := dev.queue_list ++ [new_entry dev a name id callback] },
         []) ∧
    (new_entry dev a name id callback).id.id = id ∧
    (new_entry dev a name id callback).data.callback = callback ∧
    (new_entry dev a name id callback).seq = 0 ∧
    (new_entry dev a name id callback).group = id.idx := by
  have hf : dev.queue_list.any (fun c => cn_cb_equal c.id.id id) = false := by
    simp only [List.any_eq_false]
    intro x hx; simp [h x hx]
  refine ⟨?_, rfl, rfl, rfl, rfl⟩
  simp [cn_queue_add_callback, cn_queue_alloc_callback_entry, hf, new_entry]

/-- Witness of C12: adding `{2, 100}` to the queue that holds `{1, 100}`. -/
theorem add_appends_new_entry_witness :
    (cn_queue_add_callback cqueue_h1 (some 8192) ['h', '2'] id_2_100 10).1 = 0 ∧
    (cn_queue_add_callback cqueue_h1 (some 8192) ['h', '2'] id_2_100 10).2.1.queue_list
      = cqueue_h1.queue_list ++ [new_entry cqueue_h1 8192 ['h', '2'] id_2_100 10] :=
  ⟨congrArg Prod.fst
     (add_appends_new_entry cqueue_h1 8192 ['h', '2'] id_2_100 10 (by decide)).1,
   congrArg (fun r => r.2.1.queue_list)
     (add_appends_new_entry cqueue_h1 8192 ['h', '2'] id_2_100 10 (by decide)).1⟩

/-- C13: starting from the queue `cn_queue_alloc_dev` makes (count 0, no
entries), after every finite sequence of `cn_queue_add_callback` and
`cn_queue_del_callback` calls the reference count equals the number of entries.
On any queue an add that returns 0 raises the count by one and any other add
(duplicate, failed allocation) leaves it; a remove that finds an entry lowers it
by one and a remove of an absent identifier leaves it. -/
theorem refcnt_counts_entries (kz wq : Bool) (name : List Char) (nls : Nat)
    (dev : cn_queue_dev) (h : cn_queue_alloc_dev kz wq name nls = some dev)
    (ops : List queue_op) :
    (run_ops dev ops).refcnt = (run_ops dev ops).queue_list.length ∧
    (∀ (d : cn_queue_dev) (p : Option Nat) (n : List Char) (id : cb_id) (callback : Nat),
       (cn_queue_add_callback d p n id callback).2.1.refcnt
         = if (cn_queue_add_callback d p n id callback).1 = 0 then d.refcnt + 1
           else d.refcnt) ∧
    (∀ (d : cn_queue_dev) (id : cb_id),
       (cn_queue_del_callback d id).1.refcnt
         = if d.queue_list.any (fun c => cn_cb_equal c.id.id id) then d.refcnt - 1
           else d.refcnt) := by
  have hempty := cn_queue_alloc_dev_empty kz wq name nls dev h
  refine ⟨run_ops_counts ops dev ?_, ?_, ?_⟩
  · rw [hempty.1, hempty.2.1]; rfl
  · intro d p n id callback
    exact (cn_queue_add_callback_counts d p n id callback).1
  · intro d id
    exact (cn_queue_del_callback_counts d id).1

/-- Witness of C13: add, duplicate add, failed add, remove of an absent
identifier, add of a second identifier, remove: the count is 1 with one entry
left. -/
theorem refcnt_counts_entries_witness :
    cn_queue_alloc_dev true true ['c', 'q', 'u', 'e', 'u', 'e'] 5 = some cqueue ∧
    (run_ops cqueue
      [queue_op.add (some 4096) ['h', '1'] id_1_100 9,
       queue_op.add (some 8192) ['h', '1'] id_1_100 9,
       queue_op.add none ['h', '2'] id_2_100 10,
       queue_op.del id_2_100,
       queue_op.add (some 8192) ['h', '2'] id_2_100 10,
       queue_op.del id_1_100]).refcnt = 1 ∧
    (run_ops cqueue
      [queue_op.add (some 4096) ['h', '1'] id_1_100 9,
       queue_op.add (some 8192) ['h', '1'] id_1_100 9,
       queue_op.add none ['h', '2'] id_2_100 10,
       queue_op.del id_2_100,
       queue_op.add (some 8192) ['h', '2'] id_2_100 10,
       queue_op.del id_1_100]).queue_list.length = 1 :=
  ⟨rfl,
   ((refcnt_counts_entries true true ['c', 'q', 'u', 'e', 'u', 'e'] 5 cqueue rfl
      [queue_op.add (some 4096) ['h', '1'] id_1_100 9,
       queue_op.add (some 8192) ['h', '1'] id_1_100 9,
       queue_op.add none ['h', '2'] id_2_100 10,
       queue_op.del id_2_100,
       queue_op.add (some 8192) ['h', '2'] id_2_100 10,
       queue_op.del id_1_100]).1).trans (by decide),
   by decide⟩

/-- C14 as stated fails: the queue holds the entry for `{2, 100}` with its
embedded unit in flight and the entry for `{1, 100}`; the remove of `{1, 100}`
flushes the work queue before it frees the unlinked entry, so the entry for
`{2, 100}` that is left is not the one from before the call: its pending bit
and its `ddata` are cleared. -/
theorem del_flushes_other_entries :
    cqueue_two_inflight.queue_list
      = [bound_entry msg_c 77 500 (new_entry cqueue 4096 ['h', '2'] id_2_100 9),
         new_entry cqueue 8192 ['h', '1'] id_1_100 10] ∧
    (cn_queue_del_callback cqueue_two_inflight id_1_100).1.queue_list
      = [finished_entry (bound_entry msg_c 77 500 (new_entry cqueue 4096 ['h', '2'] id_2_100 9))] ∧
    (cn_queue_del_callback cqueue_two_inflight id_1_100).1.queue_list
      ≠ [bound_entry msg_c 77 500 (new_entry cqueue 4096 ['h', '2'] id_2_100 9)] := by
  decide

/-- C14, amended: when `e` is the first entry with identifier `id`,
`cn_queue_del_callback` unlinks `e` and no other entry: the collection
afterwards has the other entries in their order, each with its address, name,
identifier, handler, seq, group and socket; their dispatch slots are as the
flush of the work queue leaves them, and every entry is exactly as before when
no dispatch was outstanding.  The reference count is one lower, and under the
uniqueness invariant no entry with identifier `id` is left. -/
theorem del_present_unlinks_first (dev : cn_queue_dev) (id : cb_id)
    (pre post : List cn_callback_entry) (e : cn_callback_entry)
    (hl : dev.queue_list = pre ++ e :: post)
    (hpre : ∀ x ∈ pre, cn_cb_equal x.id.id id = false)
    (he : cn_cb_equal e.id.id id = true) :
    (cn_queue_del_callback dev id).1.queue_list.map fixed_fields
        = (pre ++ post).map fixed_fields ∧
    (cn_queue_del_callback dev id).1.queue_list
        = (flush_workqueue dev.cn_queue (e :: (pre ++ post))).1.tail ∧
    (dev.cn_queue = [] → (cn_queue_del_callback dev id).1.queue_list = pre ++ post) ∧
    (cn_queue_del_callback dev id).1.refcnt = dev.refcnt - 1 ∧
    (unique_ids dev.queue_list →
       ∀ x ∈ (cn_queue_del_callback dev id).1.queue_list, cn_cb_equal x.id.id id = false) := by
  have hsplit := list_del_first_split id pre post e hpre he
  have hlist : (cn_queue_del_callback dev id).1.queue_list
      = (flush_workqueue dev.cn_queue (e :: (pre ++ post))).1.tail := by
    simp [cn_queue_del_callback, hl, hsplit, cn_queue_free_callback]
  have hfix : (cn_queue_del_callback dev id).1.queue_list.map fixed_fields
      = (pre ++ post).map fixed_fields := by
    rw [hlist]
    have h := flush_workqueue_fixed dev.cn_queue (e :: (pre ++ post))
    have h2 := congrArg List.tail h
    simpa [List.map_tail] using h2
  refine ⟨hfix, hlist, ?_, ?_, ?_⟩
  · intro hq
    rw [hlist, hq]
    simp [flush_workqueue]
  · simp [cn_queue_del_callback, hl, hsplit]
  · intro hu x hx
    have h := cn_queue_del_callback_absent dev id hu
    have := List.any_eq_false.mp h x hx
    simpa using this

/-- Witness of C14 amended: removing `{2, 100}`, the first of the two entries of
`cqueue_two`, leaves the entry for `{1, 100}` as it was. -/
theorem del_present_unlinks_first_witness :
    cqueue_two.queue_list
      = [] ++ new_entry cqueue 4096 ['h', '2'] id_2_100 9
          :: [new_entry cqueue 8192 ['h', '1'] id_1_100 10] ∧
    (cn_queue_del_callback cqueue_two id_2_100).1.queue_list
      = [] ++ [new_entry cqueue 8192 ['h', '1'] id_1_100 10] :=
  ⟨rfl,
   (del_present_unlinks_first cqueue_two id_2_100 []
      [new_entry cqueue 8192 ['h', '1'] id_1_100 10]
      (new_entry cqueue 4096 ['h', '2'] id_2_100 9) rfl (by decide) (by decide)).2.2.1 rfl⟩

/-! ## Claims about subscribing -/

/-- C15 as stated fails: the registry holds the subscription idx-range [10, 20),
val-range [0, 5); the subscribe for idx-range [10, 20), val-ranges [0, 5) and
[100, 101) is linked in front of it, not behind it. -/
theorem subscribe_links_before_existing :
    cn_callback 64 24 true msg_sub_10_20_0_5_100 [sub_10_20_0_5]
      = some [sub_10_20_0_5_100, sub_10_20_0_5] ∧
    cn_callback 64 24 true msg_sub_10_20_0_5_100 [sub_10_20_0_5]
      ≠ some ([sub_10_20_0_5] ++ [sub_10_20_0_5_100]) := by
  decide

/-- C15, amended: for every registry `R` and every well-formed control message
with a group that is not zero handled by `cn_callback`, allocation succeeding
and the size of the record fitting the `u32` size, the registry afterwards is
exactly one new record followed by `R`: `list_add` links the record at the head,
before all existing records; its stored control message is the incoming one,
field for field, and the records of `R` are unchanged and keep their order. -/
theorem subscribe_links_copy_at_head (w : Nat) (hw : 32 ≤ w) (sizeof_ent : Nat) (msg : cn_msg)
    (ctl : cn_ctl_msg) (R : List cn_ctl_entry) (hd : msg.data = some ctl)
    (hwf : well_formed ctl) (hlen : msg.len = SIZEOF_CN_CTL_MSG + ctl.len)
    (hg : ctl.group ≠ 0) (hfit : SIZEOF_CN_CTL_MSG + ctl.len + sizeof_ent < 2 ^ 32) :
    cn_callback w sizeof_ent true msg R = some ({ msg := ctl } :: R) := by
  have hsize := cn_callback_size_well_formed w hw ctl hwf
  have hpow : 2 ^ 32 ≤ 2 ^ w := Nat.pow_le_pow_right (by norm_num) hw
  obtain ⟨hl, hn, hb⟩ := hwf
  have hmod : (ctl.len + SIZEOF_CN_CTL_MSG) % 2 ^ w = msg.len := by
    rw [hlen, Nat.add_comm]
    exact Nat.mod_eq_of_lt (by omega)
  have hge : ¬ msg.len < SIZEOF_CN_CTL_MSG := by omega
  have hk : (SIZEOF_CN_CTL_MSG + ctl.len - SIZEOF_CN_CTL_MSG) / SIZEOF_CN_NOTIFY_REQ
      = ctl.data.length := by
    rw [hl, hn]; simp [SIZEOF_CN_NOTIFY_REQ]
  have hnofit : ¬ 2 ^ 32 ≤ SIZEOF_CN_CTL_MSG + ctl.len + sizeof_ent := by omega
  unfold cn_callback
  rw [if_neg hge, hd]
  simp only [hsize, hmod, hlen, hg, hk, hnofit, ne_eq, not_true_eq_false, if_false,
    Bool.not_true, Bool.false_eq_true, lt_self_iff_false, List.take_length]

/-- Witness of C15 amended: the subscribe of the scenario on the registry that
holds the subscription with the swapped range records. -/
theorem subscribe_links_copy_at_head_witness :
    cn_callback 64 24 true msg_sub_10_20_0_5 [sub_0_5_10_20]
      = some ({ msg := sub_10_20_0_5.msg } :: [sub_0_5_10_20]) :=
  subscribe_links_copy_at_head 64 (by decide) 24 msg_sub_10_20_0_5 sub_10_20_0_5.msg
    [sub_0_5_10_20] rfl (by decide) rfl (by decide) (by decide)

/-! ## Claims about teardown -/

theorem cn_queue_free_dev_wait_zero (reads : Nat → Int) (fuel k : Nat) (v : Int)
    (h : cn_queue_free_dev_wait reads fuel k = some v) : v = 0 := by
  induction fuel generalizing k with
  | zero => simp [cn_queue_free_dev_wait] at h
  | succ n ih =>
    by_cases hr : reads k ≠ 0
    · rw [cn_queue_free_dev_wait, if_pos hr] at h
      exact ih (k + 1) h
    · rw [cn_queue_free_dev_wait, if_neg hr] at h
      simp only [Option.some.injEq] at h
      rw [← h]; simpa using hr

theorem cn_queue_free_dev_wait_ends (reads : Nat → Int) (fuel k j : Nat)
    (hz : reads (k + j) = 0) (hj : j < fuel) :
    ∃ v, cn_queue_free_dev_wait reads fuel k = some v := by
  induction fuel generalizing k j with
  | zero => omega
  | succ n ih =>
    by_cases hr : reads k ≠ 0
    · rw [cn_queue_free_dev_wait, if_pos hr]
      cases j with
      | zero => exact absurd hz hr
      | succ j1 =>
        apply ih (k + 1) j1
        · rw [← hz]; congr 1; omega
        · omega
    · rw [cn_queue_free_dev_wait, if_neg hr]
      exact ⟨_, rfl⟩

theorem cn_queue_free_dev_wait_spins (reads : Nat → Int) (fuel k : Nat)
    (hnz : ∀ i, reads i ≠ 0) : cn_queue_free_dev_wait reads fuel k = none := by
  induction fuel generalizing k with
  | zero => rfl
  | succ n ih => rw [cn_queue_free_dev_wait, if_pos (hnz k)]; exact ih (k + 1)

theorem cn_queue_free_dev_returns (dev : cn_queue_dev) (reads : Nat → Int) (k fuel : Nat)
    (hz : reads k = 0) (hk : k < fuel) : ∃ r, cn_queue_free_dev dev reads fuel = some r := by
  obtain ⟨v, hv⟩ := cn_queue_free_dev_wait_ends reads fuel 0 k (by simpa using hz) hk
  simp [cn_queue_free_dev, hv]

/-- The wait loop ends only at the first read that gives zero, and returns that
read. -/
theorem cn_queue_free_dev_wait_first_zero (reads : Nat → Int) (fuel k : Nat) (v : Int)
    (h : cn_queue_free_dev_wait reads fuel k = some v) :
    ∃ j, j < fuel ∧ (∀ i, i < j → reads (k + i) ≠ 0) ∧ reads (k + j) = 0 ∧
      v = reads (k + j) := by
  induction fuel generalizing k with
  | zero => simp [cn_queue_free_dev_wait] at h
  | succ n ih =>
    by_cases hr : reads k ≠ 0
    · rw [cn_queue_free_dev_wait, if_pos hr] at h
      obtain ⟨j, hj, hall, hz, hv⟩ := ih (k + 1) h
      have e1 : k + (j + 1) = k + 1 + j := by omega
      refine ⟨j + 1, by omega, ?_, by rw [e1]; exact hz, by rw [e1]; exact hv⟩
      intro i hi
      cases i with
      | zero => simpa using hr
      | succ i1 =>
        have e2 : k + (i1 + 1) = k + 1 + i1 := by omega
        rw [e2]
        exact hall i1 (by omega)
    · rw [cn_queue_free_dev_wait, if_neg hr] at h
      simp only [Option.some.injEq] at h
      have hz : reads k = 0 := by simpa using hr
      refine ⟨0, by omega, ?_, by simpa using hz, by simpa using h.symm⟩
      intro i hi
      omega

/-- While every read gives a count that is not zero the wait loop does not end. -/
theorem cn_queue_free_dev_wait_none (reads : Nat → Int) (fuel k : Nat)
    (hnz : ∀ i, i < fuel → reads (k + i) ≠ 0) : cn_queue_free_dev_wait reads fuel k = none := by
  induction fuel generalizing k with
  | zero => rfl
  | succ n ih =>
    have h0 : reads k ≠ 0 := by simpa using hnz 0 (by omega)
    rw [cn_queue_free_dev_wait, if_pos h0]
    apply ih
    intro i hi
    have e : k + 1 + i = k + (i + 1) := by omega
    rw [e]
    exact hnz (i + 1) (by omega)

/-- C16: whenever `cn_queue_free_dev` returns, its wait loop has read the
reference count until a read gave zero, every read before that gave a count that
is not zero, and the count it read last, that read, is zero; the queue it leaves
is the one it got with the entry collection (and the work queue) empty.  While
the reads give counts that are not zero it does not return, and it does return
as soon as one read gives zero. -/
theorem free_dev_postcondition (dev : cn_queue_dev) (reads : Nat → Int) (fuel : Nat)
    (r : free_dev_result) (h : cn_queue_free_dev dev reads fuel = some r) :
    (∃ k, k < fuel ∧ (∀ j, j < k → reads j ≠ 0) ∧ reads k = 0 ∧ r.last_read = reads k) ∧
    r.last_read = 0 ∧
    r.dev = { dev with queue_list := [], cn_queue := [] } ∧
    r.dev.queue_list = [] ∧
    (∀ n : Nat, (∀ j, j < n → reads j ≠ 0) → cn_queue_free_dev dev reads n = none) ∧
    (∀ k n : Nat, reads k = 0 → k < n → ∃ r1, cn_queue_free_dev dev reads n = some r1) := by
  have hnone : ∀ n : Nat, (∀ j, j < n → reads j ≠ 0) → cn_queue_free_dev dev reads n = none := by
    intro n hn
    have hw := cn_queue_free_dev_wait_none reads n 0 (by simpa using hn)
    simp [cn_queue_free_dev, hw]
  unfold cn_queue_free_dev at h
  cases hw : cn_queue_free_dev_wait reads fuel 0 with
  | none => simp [hw] at h
  | some v =>
    simp only [hw, Option.some.injEq] at h
    subst h
    obtain ⟨k, hk, hall, hz, hv⟩ := cn_queue_free_dev_wait_first_zero reads fuel 0 v hw
    simp only [Nat.zero_add] at hall hz hv
    refine ⟨⟨k, hk, hall, hz, hv⟩, ?_, rfl, rfl, hnone,
      fun k n hz hk => cn_queue_free_dev_returns dev reads k n hz hk⟩
    show v = 0
    rw [hv, hz]

/-- Witness of C16: teardown of the queue that still holds `{1, 100}` while
another actor drops the count to zero after two reads: the call returns with
the third read, zero, and an empty collection; had the count stayed at 1 it
would not have returned. -/
theorem free_dev_postcondition_witness :
    cn_queue_free_dev cqueue_h1 reads_1_1_0 5
      = some { dev := { cqueue_h1 with queue_list := [], cn_queue := [] }
               last_read := 0, trace := [] } ∧
    (∃ k, k < 5 ∧ (∀ j, j < k → reads_1_1_0 j ≠ 0) ∧ reads_1_1_0 k = 0 ∧
      ({ dev := { cqueue_h1 with queue_list := [], cn_queue := [] }
         last_read := 0, trace := [] } : free_dev_result).last_read = reads_1_1_0 k) ∧
    cn_queue_free_dev cqueue_h1 reads_1_1_0 2 = none :=
  ⟨rfl,
   (free_dev_postcondition cqueue_h1 reads_1_1_0 5
      { dev := { cqueue_h1 with queue_list := [], cn_queue := [] }
        last_read := 0, trace := [] } rfl).1,
   (free_dev_postcondition cqueue_h1 reads_1_1_0 5
      { dev := { cqueue_h1 with queue_list := [], cn_queue := [] }
        last_read := 0, trace := [] } rfl).2.2.2.2.1 2 (by decide)⟩

/-- C19: `cn_queue_free_dev` does not write the reference count.  With no other
actor (every read gives the count of the queue) and a count equal to the number
of entries, the wait loop ends and the call returns exactly when the collection
was empty when teardown started; with an entry still registered no number of
iterations ends the loop.  When another actor brings the count to zero the call
returns. -/
theorem free_dev_returns_iff_empty (dev : cn_queue_dev)
    (h : dev.refcnt = dev.queue_list.length) :
    ((∃ fuel r, cn_queue_free_dev dev (fun _ => dev.refcnt) fuel = some r)
       ↔ dev.queue_list = []) ∧
    (dev.queue_list ≠ [] → ∀ fuel, cn_queue_free_dev dev (fun _ => dev.refcnt) fuel = none) ∧
    (dev.queue_list = [] →
       ∀ fuel, 0 < fuel → ∃ r, cn_queue_free_dev dev (fun _ => dev.refcnt) fuel = some r) ∧
    (∀ (reads : Nat → Int) (fuel : Nat) (r : free_dev_result),
       cn_queue_free_dev dev reads fuel = some r → r.dev.refcnt = dev.refcnt) ∧
    (∀ (reads : Nat → Int) (k fuel : Nat), reads k = 0 → k < fuel →
       ∃ r, cn_queue_free_dev dev reads fuel = some r) := by
  have hspin : dev.queue_list ≠ [] →
      ∀ fuel, cn_queue_free_dev dev (fun _ => dev.refcnt) fuel = none := by
    intro hne fuel
    have hpos : 0 < dev.queue_list.length := List.length_pos.mpr hne
    have hnz : ∀ i : Nat, (fun _ : Nat => dev.refcnt) i ≠ 0 := by
      intro i
      show dev.refcnt ≠ 0
      rw [h]; omega
    simp [cn_queue_free_dev, cn_queue_free_dev_wait_spins _ fuel 0 hnz]
  have hret : dev.queue_list = [] →
      ∀ fuel, 0 < fuel → ∃ r, cn_queue_free_dev dev (fun _ => dev.refcnt) fuel = some r := by
    intro he fuel hf
    apply cn_queue_free_dev_returns dev _ 0 fuel _ hf
    show dev.refcnt = 0
    rw [h, he]; rfl
  refine ⟨⟨?_, ?_⟩, hspin, hret, ?_, ?_⟩
  · rintro ⟨fuel, r, hr⟩
    by_contra hne
    rw [hspin hne fuel] at hr
    simp at hr
  · intro he
    obtain ⟨r, hr⟩ := hret he 1 (by omega)
    exact ⟨1, r, hr⟩
  · intro reads fuel r hr
    unfold cn_queue_free_dev at hr
    cases hw : cn_queue_free_dev_wait reads fuel 0 with
    | none => simp [hw] at hr
    | some v =>
      simp only [hw, Option.some.injEq] at hr
      subst hr
      rfl
  · intro reads k fuel hz hk
    exact cn_queue_free_dev_returns dev reads k fuel hz hk

/-- Witness of C19: teardown of the queue that still holds `{1, 100}` does not
end within 1000 iterations; teardown of the empty queue returns at once. -/
theorem free_dev_returns_iff_empty_witness :
    cqueue_h1.refcnt = cqueue_h1.queue_list.length ∧
    cn_queue_free_dev cqueue_h1 (fun _ => cqueue_h1.refcnt) 1000 = none ∧
    cqueue.refcnt = cqueue.queue_list.length ∧
    (∃ r, cn_queue_free_dev cqueue (fun _ => cqueue.refcnt) 1 = some r) :=
  ⟨by decide,
   (free_dev_returns_iff_empty cqueue_h1 (by decide)).2.1 (by decide) 1000,
   by decide,
   (free_dev_returns_iff_empty cqueue (by decide)).2.2.1 rfl 1 (by decide)⟩

/-! ## Claims about receiving -/

theorem cn_call_callback_entry_ret (wq : List work_item) (w : Option Nat) (msg : cn_msg)
    (dd data : Nat) (c : cn_callback_entry) :
    (cn_call_callback_entry wq w msg dd data c).1 ≠ -EPERM := by
  unfold cn_call_callback_entry
  split
  · simp only [queue_work]
    split <;> split <;> simp [EPERM, ENODEV]
  · cases w with
    | none => simp [EPERM, ENOMEM]
    | some a => simp [queue_work, EPERM]

theorem cn_call_callback_scan_ret (wq : List work_item) (w : Option Nat) (msg : cn_msg)
    (dd data : Nat) (l : List cn_callback_entry) :
    (cn_call_callback_scan wq w msg dd data l).1 ≠ -EPERM := by
  induction l with
  | nil => simp [cn_call_callback_scan, EPERM, ENODEV]
  | cons c cs ih =>
    by_cases hc : cn_cb_equal c.id.id msg.id = true
    · simp only [cn_call_callback_scan, hc, if_true]
      exact cn_call_callback_entry_ret wq w msg dd data c
    · simp only [cn_call_callback_scan, hc]
      exact ih

/-- C17: `__cn_rx_skb` returns `-EPERM` and leaves the queue, its entries and its
work queue as they were when the caller lacks the administrative capability;
with the capability its result is the result of `cn_call_callback` on the
message, with `kfree_skb` as destructor and the buffer as its data; and it
returns `-EPERM` only when the capability is lacking. -/
theorem rx_privilege_gate (dev : cn_queue_dev) (capable : Bool) (w : Option Nat)
    (kfree_skb_fn : Nat) (skb : sk_buff) :
    (capable = false → __cn_rx_skb dev capable w kfree_skb_fn skb = (-EPERM, dev)) ∧
    (capable = true →
       __cn_rx_skb dev capable w kfree_skb_fn skb
         = cn_call_callback dev w skb.msg kfree_skb_fn skb.addr) ∧
    ((__cn_rx_skb dev capable w kfree_skb_fn skb).1 = -EPERM ↔ capable = false) := by
  cases capable with
  | false => simp [__cn_rx_skb]
  | true =>
    have hne : (cn_call_callback dev w skb.msg kfree_skb_fn skb.addr).1 ≠ -EPERM :=
      cn_call_callback_scan_ret _ _ _ _ _ _
    refine ⟨fun hc => by simp at hc, fun _ => by simp [__cn_rx_skb], ?_⟩
    constructor
    · intro hr
      have : __cn_rx_skb dev true w kfree_skb_fn skb
          = cn_call_callback dev w skb.msg kfree_skb_fn skb.addr := by simp [__cn_rx_skb]
      rw [this] at hr
      exact absurd hr hne
    · intro hc; simp at hc

/-- Witness of C17: the buffer that carries `msg_a`, received without and with
the capability on the queue that holds `{1, 100}`. -/
theorem rx_privilege_gate_witness :
    __cn_rx_skb cqueue_h1 false none 99 skb_a = (-EPERM, cqueue_h1) ∧
    __cn_rx_skb cqueue_h1 true none 99 skb_a = cn_call_callback cqueue_h1 none msg_a 99 24576 :=
  ⟨(rx_privilege_gate cqueue_h1 false none 99 skb_a).1 rfl,
   (rx_privilege_gate cqueue_h1 true none 99 skb_a).2.1 rfl⟩

/-- C20, the code at a buffer shorter than a netlink header: `cn_rx_skb` takes
its reference with `skb_get`, skips the block that checks and delivers, and
releases one reference at `out`; the user count ends equal to the count at
entry although nothing was dispatched.  For every buffer that is long enough
the count ends one lower when the header is refused or `__cn_rx_skb` fails, and
equal to the count at entry when the message was dispatched. -/
theorem rx_short_buffer_keeps_reference :
    skb_short.len < NLMSG_SPACE_0 ∧
    cn_rx_skb cqueue_h1 true none 99 1024 skb_short = (cqueue_h1, skb_short) ∧
    (cn_rx_skb cqueue_h1 true none 99 1024 skb_short).2.users = skb_short.users ∧
    (∀ (dev : cn_queue_dev) (capable : Bool) (w : Option Nat) (f m : Nat) (skb : sk_buff),
       skb.len < NLMSG_SPACE_0 → cn_rx_skb dev capable w f m skb = (dev, skb)) ∧
    (∀ (dev : cn_queue_dev) (capable : Bool) (w : Option Nat) (f m : Nat) (skb : sk_buff),
       NLMSG_SPACE_0 ≤ skb.len →
       (cn_rx_skb dev capable w f m skb).2.users
         = if (skb.nlh.nlmsg_len < SIZEOF_CN_MSG ∨ skb.len < skb.nlh.nlmsg_len ∨
               m < skb.nlh.nlmsg_len) ∨
              (__cn_rx_skb dev capable w f (skb_get skb)).1 < 0
           then skb.users - 1 else skb.users) := by
  refine ⟨by decide, by decide, by decide, ?_, ?_⟩
  · intro dev capable w f m skb hlen
    have h : ¬ NLMSG_SPACE_0 ≤ (skb_get skb).len := by
      simp only [skb_get]; omega
    simp only [cn_rx_skb, h, if_false]
    cases skb
    simp [kfree_skb, skb_get]
  · intro dev capable w f m skb hlen
    have h : NLMSG_SPACE_0 ≤ (skb_get skb).len := by
      simp only [skb_get]; exact hlen
    simp only [cn_rx_skb, h, if_true]
    by_cases hhdr : (skb_get skb).nlh.nlmsg_len < SIZEOF_CN_MSG ∨
        (skb_get skb).len < (skb_get skb).nlh.nlmsg_len ∨ m < (skb_get skb).nlh.nlmsg_len
    · have hhdr2 : skb.nlh.nlmsg_len < SIZEOF_CN_MSG ∨ skb.len < skb.nlh.nlmsg_len ∨
          m < skb.nlh.nlmsg_len := by simpa [skb_get] using hhdr
      rw [if_pos hhdr, if_pos (Or.inl hhdr2)]
      simp [kfree_skb, skb_get]
    · have hhdr2 : ¬ (skb.nlh.nlmsg_len < SIZEOF_CN_MSG ∨ skb.len < skb.nlh.nlmsg_len ∨
          m < skb.nlh.nlmsg_len) := by simpa [skb_get] using hhdr
      rw [if_neg hhdr]
      by_cases herr : (__cn_rx_skb dev capable w f (skb_get skb)).1 < 0
      · rw [if_pos herr, if_pos (Or.inr herr)]
        simp [kfree_skb, skb_get]
      · rw [if_neg herr, if_neg (by tauto)]
        simp [kfree_skb, skb_get]

/-! ## Claims about the comparison of control messages -/

theorem take_eq_iff_getElem? (d1 d2 : List cn_notify_req) (n : Nat) :
    d1.take n = d2.take n ↔ ∀ k, k < n → d1[k]? = d2[k]? := by
  constructor
  · intro h k hk
    have h2 := congrArg (fun l : List cn_notify_req => l[k]?) h
    simpa [List.getElem?_take_of_lt hk] using h2
  · intro h
    apply List.ext_getElem?
    intro k
    by_cases hk : k < n
    · rw [List.getElem?_take_of_lt hk, List.getElem?_take_of_lt hk]
      exact h k hk
    · rw [List.getElem?_take_eq_none (by omega), List.getElem?_take_eq_none (by omega)]

/-- Where the records that get compared are present in both messages,
`cn_ctl_msg_equals` returns 1 exactly when `idx_notify_num`, `val_notify_num`
and `len` of the two messages are pairwise equal and either the size of the
declared records of the first, as the C expression computes it (`u32` sum,
`size_t` product), differs from its `len` (no record is compared then) or every
idx-range and val-range record of the first equals the record at the same
position of the second; in all other cases it returns 0. -/
theorem ctl_msg_equals_iff (w : Nat) (m1 m2 : cn_ctl_msg)
    (hpresent : m1.idx_notify_num = m2.idx_notify_num → m1.val_notify_num = m2.val_notify_num →
      m1.len = m2.len → ¬ corrupted w m1 →
      m1.idx_notify_num + m1.val_notify_num ≤ m1.data.length ∧
      m1.idx_notify_num + m1.val_notify_num ≤ m2.data.length) :
    cn_ctl_msg_equals w m1 m2
      = some (decide (m1.idx_notify_num = m2.idx_notify_num ∧
          m1.val_notify_num = m2.val_notify_num ∧ m1.len = m2.len ∧
          (corrupted w m1 ∨
            m1.data.take (m1.idx_notify_num + m1.val_notify_num)
              = m2.data.take (m1.idx_notify_num + m1.val_notify_num)))) := by
  unfold cn_ctl_msg_equals
  by_cases hi : m1.idx_notify_num = m2.idx_notify_num
  swap
  · simp [hi]
  by_cases hv : m1.val_notify_num = m2.val_notify_num
  swap
  · simp [hi, hv]
  by_cases hlen : m1.len = m2.len
  swap
  · simp [hi, hv, hlen]
  by_cases hc : corrupted w m1
  · have hc2 := hc
    unfold corrupted at hc2
    rw [if_neg (not_not.mpr hi), if_neg (not_not.mpr hv), if_neg (not_not.mpr hlen), if_pos hc2]
    simp [hi, hv, hlen, hc]
  · have hc2 := hc
    unfold corrupted at hc2
    obtain ⟨hb1, hb2⟩ := hpresent hi hv hlen hc
    rw [if_neg (not_not.mpr hi), if_neg (not_not.mpr hv), if_neg (not_not.mpr hlen), if_neg hc2]
    rcases cn_ctl_msg_equals_loop_spec m1.data m2.data m1.idx_notify_num 0 (by omega) (by omega)
      with ⟨hs1, ha1⟩ | ⟨hs1, k, hk1, hk2, hk3⟩
    · rw [hs1]
      simp only [Nat.zero_add] at ha1 ⊢
      rcases cn_ctl_msg_equals_loop_spec m1.data m2.data m1.val_notify_num m1.idx_notify_num
          (by omega) (by omega) with ⟨hs2, ha2⟩ | ⟨hs2, k, hk1, hk2, hk3⟩
      · rw [hs2]
        have htake : m1.data.take (m1.idx_notify_num + m1.val_notify_num)
            = m2.data.take (m1.idx_notify_num + m1.val_notify_num) := by
          rw [take_eq_iff_getElem?]
          intro k hk
          by_cases hk1 : k < m1.idx_notify_num
          · exact ha1 k (Nat.zero_le _) hk1
          · exact ha2 k (by omega) hk
        rw [decide_eq_true (⟨hi, hv, hlen, Or.inr htake⟩ : _ ∧ _ ∧ _ ∧ _)]
      · rw [hs2]
        have htake : ¬ m1.data.take (m1.idx_notify_num + m1.val_notify_num)
            = m2.data.take (m1.idx_notify_num + m1.val_notify_num) := by
          rw [take_eq_iff_getElem?]
          intro hall
          exact hk3 (hall k hk2)
        rw [decide_eq_false (fun hP => hP.2.2.2.elim hc htake)]
    · rw [hs1]
      have htake : ¬ m1.data.take (m1.idx_notify_num + m1.val_notify_num)
          = m2.data.take (m1.idx_notify_num + m1.val_notify_num) := by
        rw [take_eq_iff_getElem?]
        intro hall
        exact hk3 (hall k (by omega))
      rw [decide_eq_false (fun hP => hP.2.2.2.elim hc htake)]

/-- Examples of `ctl_msg_equals_iff`: the subscription of the scenario compared
with itself (1), with the one whose range records are swapped (0), and a message
that declares `2 ^ 29` records and length 0 compared with itself on a 64-bit
`size_t` (1, without a record being read). -/
theorem ctl_msg_equals_iff_witness :
    cn_ctl_msg_equals 64 sub_10_20_0_5.msg sub_10_20_0_5.msg = some true ∧
    cn_ctl_msg_equals 64 sub_10_20_0_5.msg sub_0_5_10_20.msg = some false ∧
    cn_ctl_msg_equals 64 ctl_wrapped ctl_wrapped = some true :=
  ⟨(ctl_msg_equals_iff 64 sub_10_20_0_5.msg sub_10_20_0_5.msg (by decide)).trans (by decide),
   (ctl_msg_equals_iff 64 sub_10_20_0_5.msg sub_0_5_10_20.msg (by decide)).trans (by decide),
   (ctl_msg_equals_iff 64 ctl_wrapped ctl_wrapped (by decide)).trans (by decide)⟩

/-- C18, the code at a record whose counts add up to `2 ^ 32`: `cn_callback`
stores the header-only message with `idx_notify_num = 2 ^ 32 - 1`,
`val_notify_num = 1`, `len = 0`.  The size of its declared records is not its
`len`, so it is corrupted, and compared with itself or with its unsubscribe
message all three header fields are equal: the function is to return 1.  In the
code the `u32` sum of the counts wraps to 0, the test for a corrupted message
finds `0 * sizeof(*req1) == len`, and the loops read range records that are not
there, for a 64-bit and for a 32-bit `size_t`; so does the unsubscribe. -/
theorem cn_ctl_msg_equals_wrapped_sum_reads_absent_records :
    cn_callback 64 24 true msg_sum_wrapped [] = some [{ msg := ctl_sum_wrapped }] ∧
    cn_callback 32 12 true msg_sum_wrapped [] = some [{ msg := ctl_sum_wrapped }] ∧
    (ctl_sum_wrapped.idx_notify_num + ctl_sum_wrapped.val_notify_num) * SIZEOF_CN_NOTIFY_REQ
      ≠ ctl_sum_wrapped.len ∧
    ¬ corrupted 64 ctl_sum_wrapped ∧
    ¬ corrupted 32 ctl_sum_wrapped ∧
    cn_ctl_msg_equals 64 ctl_sum_wrapped ctl_sum_wrapped = none ∧
    cn_ctl_msg_equals 32 ctl_sum_wrapped ctl_sum_wrapped = none ∧
    cn_ctl_msg_equals 64 ctl_sum_wrapped { ctl_sum_wrapped with group := 0 } = none ∧
    cn_callback 64 24 true msg_unsub_sum_wrapped [{ msg := ctl_sum_wrapped }] = none := by
  decide

/-- The frame of a message whose length makes the `unsigned int size` wrap is
smaller than what `memcpy` writes into it. -/
theorem cn_netlink_send_frame_wrapped :
    NLMSG_SPACE (SIZEOF_CN_MSG + (2 ^ 32 - 39)) = 2 ^ 32 ∧
    cn_netlink_send_size { msg_a with len := 2 ^ 32 - 39 } = 0 ∧
    cn_netlink_send_frame true { msg_a with len := 2 ^ 32 - 39 } 7 = none ∧
    cn_netlink_send_frame true { msg_a with len := 2 ^ 32 - 40 } 7
      = some (0, [{ group := 7, nlmsg_seq := 1, msg := { msg_a with len := 2 ^ 32 - 40 } }]) := by
  decide

end Connector
